import Mathlib

/-!
Verification of the `lifegpc-sha1` SHA-1 implementation (`src/sha1.ts`).

The TypeScript source is shallowly embedded here:
* JavaScript 32-bit values (elements of `Int32Array`, results of bitwise
  operators) are represented by their unsigned bit pattern, a `Nat` below
  `2 ^ 32 = 4294967296`; signed-sensitive operations (`>>` in `safeAdd`,
  `~` in the round function) are modelled explicitly on the pattern.
* `Uint8Array`s are `List Nat`; an assignment `a[i] = v` becomes
  `List.set i (v % 256)` (both silently drop out-of-range writes, and a
  `Uint8Array` store truncates modulo 256), and a read `a[i]` becomes
  `List.getD i 0` (an out-of-range JavaScript read yields `undefined`,
  which the bitwise operators coerce to `0`).
* the mutable hasher object becomes a `SHA1` structure passed and returned
  explicitly; `throw` becomes `Except.error`.
* `while`/`for` loops become structural recursions on an explicit fuel or on
  the list being consumed, matching the source's iteration count.
-/

set_option autoImplicit false

namespace Sha1

/-- Error message of `SHA1.update` on a finished hasher (the apostrophe of
the source text is elided). -/
def updateErrMsg : String := "SHA1: cannot update because hash was finished."

/-- Error message of `SHA1.saveState` on a finished hasher. -/
def saveErrMsg : String := "SHA1: cannot save finished state"

/-- Source constant `DIGEST_LENGTH = 20`. -/
def DIGEST_LENGTH : Nat := 20

/-- Source constant `BLOCK_SIZE = 64`. -/
def BLOCK_SIZE : Nat := 64

/-- Source `leftrotate(x, c) = (x << c) | (x >>> (32 - c))`.  Both JavaScript
shifts first coerce `x` to a 32-bit value, so the embedding reduces the
argument modulo `2 ^ 32`; `<<` then keeps the low 32 bits of the shifted
pattern and `>>>` is a plain right shift of the unsigned pattern. -/
def leftrotate (x c : Nat) : Nat :=
  (((x % 4294967296) <<< c) % 4294967296) ||| ((x % 4294967296) >>> (32 - c))

/-- Source `safeAdd(x, y)`: 16-bit limb addition written against JavaScript
signed 32-bit semantics.  `x & 0xffff` extracts the low 16 bits of the
pattern; `x >> 16` is an arithmetic shift of the signed value, which on the
unsigned pattern is `x / 2 ^ 16` minus `2 ^ 16` when the sign bit is set;
`(msw << 16) | (lsw & 0xffff)` reassembles the pattern from the low 16 bits
of `msw` and of `lsw`. -/
def safeAdd (x y : Nat) : Nat :=
  let lsw : Nat := x % 65536 + y % 65536
  let mswx : Int :=
    ((x % 4294967296 / 65536 : Nat) : Int) -
      (if x % 4294967296 < 2147483648 then 0 else 65536)
  let mswy : Int :=
    ((y % 4294967296 / 65536 : Nat) : Int) -
      (if y % 4294967296 < 2147483648 then 0 else 65536)
  let msw : Int := mswx + mswy + ((lsw / 65536 : Nat) : Int)
  (msw % 65536).toNat * 65536 + lsw % 65536

/-- The `@stablelib/binary` helper `readUint32BE(array, offset)`: loads a
big-endian 32-bit word from four bytes.  `Uint8Array` elements are below
256 (`% 256` embeds that); an out-of-range read contributes `0`. -/
def readUint32BE (array : List Nat) (offset : Nat) : Nat :=
  (array.getD offset 0 % 256) * 16777216 + (array.getD (offset + 1) 0 % 256) * 65536 +
    (array.getD (offset + 2) 0 % 256) * 256 + (array.getD (offset + 3) 0 % 256)

/-- The `@stablelib/binary` helper `writeUint32BE(value, out, offset)`:
stores the four big-endian bytes of the low 32 bits of `value`; each store
truncates modulo 256 and is dropped when out of range. -/
def writeUint32BE (value : Nat) (out : List Nat) (offset : Nat) : List Nat :=
  let v := value % 4294967296
  ((((out.set offset (v / 16777216 % 256)).set (offset + 1) (v / 65536 % 256)).set
      (offset + 2) (v / 256 % 256)).set (offset + 3) (v % 256))

/-- The message-schedule extension loop of `hashBlocks`
(`for i in 16..79: w[i] = leftrotate(w[i-3] ^ w[i-8] ^ w[i-14] ^ w[i-16], 1)`),
run `fuel = 64` times; `w.length` plays the role of the loop counter `i`. -/
def extendW : Nat → List Nat → List Nat
  | 0, w => w
  | n + 1, w =>
    extendW n
      (w ++ [leftrotate
        (((w.getD (w.length - 3) 0 ^^^ w.getD (w.length - 8) 0) ^^^
            w.getD (w.length - 14) 0) ^^^ w.getD (w.length - 16) 0) 1])

/-- One round of the 80-round loop of `hashBlocks`: the `(f, k)` selection by
round index `i` and the rotation of the working variables.  `~b` on a 32-bit
pattern is xor with `0xffffffff`. -/
def sha1Round (w : List Nat) (i : Nat) (s : Nat × Nat × Nat × Nat × Nat) :
    Nat × Nat × Nat × Nat × Nat :=
  let a := s.1
  let b := s.2.1
  let c := s.2.2.1
  let d := s.2.2.2.1
  let e := s.2.2.2.2
  let f :=
    if i ≤ 19 then (b &&& c) ||| ((4294967295 ^^^ (b % 4294967296)) &&& d)
    else if i ≤ 39 then (b ^^^ c) ^^^ d
    else if i ≤ 59 then ((b &&& c) ||| (b &&& d)) ||| (c &&& d)
    else (b ^^^ c) ^^^ d
  let k :=
    if i ≤ 19 then 0x5a827999
    else if i ≤ 39 then 0x6ed9eba1
    else if i ≤ 59 then 0x8f1bbcdc
    else 0xca62c1d6
  let temp := safeAdd (leftrotate a 5) (safeAdd f (safeAdd e (safeAdd k (w.getD i 0))))
  (temp, a, leftrotate b 30, c, d)

/-- The 80-round loop of `hashBlocks`, run with `fuel = 80` from `i = 0`. -/
def roundsGo (w : List Nat) : Nat → Nat → Nat × Nat × Nat × Nat × Nat →
    Nat × Nat × Nat × Nat × Nat
  | 0, _, s => s
  | fuel + 1, i, s => roundsGo w fuel (i + 1) (sha1Round w i s)

/-- One iteration of the outer `while (len >= 64)` loop of `hashBlocks`:
load 16 big-endian words at `pos`, extend the schedule to 80 words, run the
80 rounds from the current state, and accumulate with `safeAdd`.  Reading an
`Int32Array` element yields its 32-bit pattern, hence the `% 4294967296` on
the initial loads. -/
def processBlock (v : List Nat) (p : List Nat) (pos : Nat) : List Nat :=
  let w := extendW 64 ((List.range 16).map (fun i => readUint32BE p (pos + i * 4)))
  let a := v.getD 0 0 % 4294967296
  let b := v.getD 1 0 % 4294967296
  let c := v.getD 2 0 % 4294967296
  let d := v.getD 3 0 % 4294967296
  let e := v.getD 4 0 % 4294967296
  let r := roundsGo w 80 0 (a, b, c, d, e)
  [safeAdd (v.getD 0 0) r.1, safeAdd (v.getD 1 0) r.2.1,
    safeAdd (v.getD 2 0) r.2.2.1, safeAdd (v.getD 3 0) r.2.2.2.1,
    safeAdd (v.getD 4 0) r.2.2.2.2]

/-- The outer loop of `hashBlocks`, which runs once per complete 64-byte
block, i.e. `len / 64` times, advancing `pos` by 64 each iteration. -/
def hashBlocksGo (p : List Nat) : Nat → List Nat → Nat → List Nat
  | 0, v, _ => v
  | fuel + 1, v, pos => hashBlocksGo p fuel (processBlock v p pos) (pos + 64)

/-- Source `hashBlocks(w, v, p, pos, len)`.  The scratch schedule array `w`
is fully recomputed per block, so it does not appear as state; the function
returns the new hash state together with the returned offset
`pos + 64 * (len / 64)`. -/
def hashBlocks (v : List Nat) (p : List Nat) (pos len : Nat) : List Nat × Nat :=
  (hashBlocksGo p (len / 64) v pos, pos + len / 64 * 64)

/-- The incremental hasher: fields of the `SHA1` class.  `state` holds the
five 32-bit chaining words, `buffer` the 128-byte internal block buffer. -/
structure SHA1 where
  state : List Nat
  buffer : List Nat
  bufferLength : Nat
  bytesHashed : Nat
  finished : Bool
  deriving DecidableEq, Repr

/-- The five initial chaining words set by `_initState`. -/
def SHA1.stateInit : List Nat :=
  [0x67452301, 0xefcdab89, 0x98badcfe, 0x10325476, 0xc3d2e1f0]

/-- Source `reset()`: reinitialize the chaining words and counters and clear
the finished flag.  The buffer contents are left as they are. -/
def SHA1.reset (h : SHA1) : SHA1 :=
  { h with state := SHA1.stateInit, bufferLength := 0, bytesHashed := 0, finished := false }

/-- A freshly constructed hasher: `new Uint8Array(128)` is all zeroes, and
the constructor calls `reset()`. -/
def SHA1.init : SHA1 :=
  { state := SHA1.stateInit, buffer := List.replicate 128 0, bufferLength := 0,
    bytesHashed := 0, finished := false }

/-- Source `clean()`: wipe the buffer (and the scratch schedule, which is
not part of the functional state) and reset. -/
def SHA1.clean (h : SHA1) : SHA1 :=
  SHA1.reset { h with buffer := List.replicate 128 0 }

/-- The first `while` loop of `update`: copy bytes into the buffer while
`bufferLength < 64` and input remains, returning the new buffer, the new
buffer length, and the unconsumed input. -/
def fillLoop : List Nat → Nat → List Nat → List Nat × Nat × List Nat
  | buf, bufLen, [] => (buf, bufLen, [])
  | buf, bufLen, b :: rest =>
    if bufLen < 64 then fillLoop (buf.set bufLen (b % 256)) (bufLen + 1) rest
    else (buf, bufLen, b :: rest)

/-- The final `while` loop of `update`: copy every remaining input byte into
the buffer. -/
def copyTail : List Nat → Nat → List Nat → List Nat × Nat
  | buf, bufLen, [] => (buf, bufLen)
  | buf, bufLen, b :: rest => copyTail (buf.set bufLen (b % 256)) (bufLen + 1) rest

/-- Body of `update` after the finished-flag check (the source mutates the
hasher in place; advancing `dataPos` is rendered as passing the unconsumed
suffix of `data` along).  Phases, as in the source: top up a non-empty
buffer and compress it when it reaches 64 bytes; compress the remaining
complete 64-byte blocks directly from the input; copy the tail (fewer than
64 bytes) into the buffer. -/
def SHA1.updateU (h : SHA1) (data : List Nat) : SHA1 :=
  let bytesHashed := h.bytesHashed + data.length
  let afterFill :=
    if h.bufferLength > 0 then
      let fr := fillLoop h.buffer h.bufferLength data
      if fr.2.1 = 64 then
        ((hashBlocks h.state fr.1 0 64).1, fr.1, 0, fr.2.2)
      else (h.state, fr.1, fr.2.1, fr.2.2)
    else (h.state, h.buffer, h.bufferLength, data)
  let st0 := afterFill.1
  let buf0 := afterFill.2.1
  let len0 := afterFill.2.2.1
  let rest := afterFill.2.2.2
  let afterBlocks :=
    if rest.length ≥ 64 then
      ((hashBlocks st0 rest 0 rest.length).1, rest.drop (rest.length / 64 * 64))
    else (st0, rest)
  let tail := copyTail buf0 len0 afterBlocks.2
  { state := afterBlocks.1, buffer := tail.1, bufferLength := tail.2,
    bytesHashed := bytesHashed, finished := h.finished }

/-- Source `update(data)`: throws when the hash is already finished,
otherwise runs the update body. -/
def SHA1.update (h : SHA1) (data : List Nat) : Except String SHA1 :=
  if h.finished then Except.error updateErrMsg
  else Except.ok (h.updateU data)

/-- The zero-fill loop of `finish`
(`for i in left+1 ..< padLength-8: buffer[i] = 0`), with
`fuel = (padLength - 8) - (left + 1)` iterations starting at index `i`. -/
def zeroFill : List Nat → Nat → Nat → List Nat
  | buf, _, 0 => buf
  | buf, i, n + 1 => zeroFill (buf.set i 0) (i + 1) n

/-- The digest-output loop of `finish`
(`for i in 0 ..< digestLength / 4: writeUint32BE(state[i], out, i * 4)`). -/
def writeDigest (state out : List Nat) : List Nat :=
  List.foldl (fun o i => writeUint32BE (state.getD i 0) o (i * 4)) out (List.range 5)

/-- Source `finish(out)`: on an unfinished hasher, append the `0x80`
terminator after the buffered bytes, zero-fill up to the 8-byte length
field, store the bit length as two big-endian words (`bitLenHi` is
`(bytesHashed / 0x20000000) | 0`, `bitLenLo` is `bytesHashed << 3`), run
the compression engine over the `padLength` (64 or 128) buffered bytes and
mark the hasher finished; in every case serialize the five state words
big-endian into `out`.  Returns the updated hasher and `out`. -/
def SHA1.finish (h : SHA1) (out : List Nat) : SHA1 × List Nat :=
  let h' :=
    if h.finished then h
    else
      let bytesHashed := h.bytesHashed
      let left := h.bufferLength
      let bitLenHi := bytesHashed / 0x20000000 % 4294967296
      let bitLenLo := bytesHashed * 8 % 4294967296
      let padLength := if bytesHashed % 64 < 56 then 64 else 128
      let buf1 := h.buffer.set left (0x80 % 256)
      let buf2 := zeroFill buf1 (left + 1) (padLength - 8 - (left + 1))
      let buf3 := writeUint32BE bitLenHi buf2 (padLength - 8)
      let buf4 := writeUint32BE bitLenLo buf3 (padLength - 4)
      let st := (hashBlocks h.state buf4 0 padLength).1
      { h with state := st, buffer := buf4, finished := true }
  (h', writeDigest h'.state out)

/-- Source `digest()`: allocate a fresh zeroed 20-byte buffer, `finish` into
it and return it. -/
def SHA1.digest (h : SHA1) : List Nat :=
  (h.finish (List.replicate 20 0)).2

/-- The `SavedState` record returned by `saveState()`. -/
structure SavedState where
  state : List Nat
  buffer : Option (List Nat)
  bufferLength : Nat
  bytesHashed : Nat
  deriving DecidableEq, Repr

/-- Source `saveState()`: fails on a finished hasher; otherwise snapshots
the state words, the full buffer when any bytes are buffered, the buffer
length and the byte count. -/
def SHA1.saveState (h : SHA1) : Except String SavedState :=
  if h.finished then Except.error saveErrMsg
  else
    Except.ok
      { state := h.state,
        buffer := if h.bufferLength > 0 then some h.buffer else none,
        bufferLength := h.bufferLength, bytesHashed := h.bytesHashed }

/-- Source `restoreState(savedState)`: overwrite the state words, buffer
length and byte count from the snapshot, copy the snapshot buffer (a full
128-byte copy) over the front of the internal buffer when present, and
clear the finished flag. -/
def SHA1.restoreState (h : SHA1) (s : SavedState) : SHA1 :=
  { state := s.state,
    buffer :=
      match s.buffer with
      | some b => b ++ h.buffer.drop b.length
      | none => h.buffer,
    bufferLength := s.bufferLength, bytesHashed := s.bytesHashed, finished := false }

/-- Source `hash(data)`: hash `data` with a fresh hasher (`update` cannot
throw there since a fresh hasher is unfinished) and return the digest. -/
def hash (data : List Nat) : List Nat :=
  (SHA1.init.updateU data).digest

/-- UTF-8 bytes of one code point, as produced by the external `TextEncoder`
collaborator (the inputs below contain no surrogate pairs). -/
def utf8Bytes (n : Nat) : List Nat :=
  if n < 128 then [n]
  else if n < 2048 then [192 + n / 64, 128 + n % 64]
  else if n < 65536 then [224 + n / 4096, 128 + n / 64 % 64, 128 + n % 64]
  else [240 + n / 262144, 128 + n / 4096 % 64, 128 + n / 64 % 64, 128 + n % 64]

/-- The external `TextEncoder` collaborator: UTF-8 encoding of a string. -/
def utf8Encode (s : String) : List Nat :=
  s.data.foldr (fun c acc => utf8Bytes c.toNat ++ acc) []

/-- One lowercase hexadecimal digit. -/
def hexDigit (n : Nat) : Char :=
  if n < 10 then Char.ofNat (48 + n) else Char.ofNat (87 + n)

/-- The external `array-buffer-to-hex` collaborator: lowercase hex encoding
of a byte sequence. -/
def arrayBufferToHex (bytes : List Nat) : String :=
  String.mk (bytes.foldr (fun b acc => hexDigit (b / 16) :: hexDigit (b % 16) :: acc) [])

/-- Source `sha1(s)`: UTF-8 encode, hash, hex encode. -/
def sha1 (s : String) : String :=
  arrayBufferToHex (hash (utf8Encode s))

/-- Modelled from the spec: the `@stablelib/hmac` construction used by
`hashWithHmac` is not part of this repository's sources.  Following the
spec's HMAC algorithm: a key longer than the block size (64 bytes) is
replaced by its hash digest; the key is zero-padded to the block size; the
inner pad is the key xor repeated `0x36`, the outer pad the key xor repeated
`0x5c`; the result is `Hash(outerPad ++ Hash(innerPad ++ message))`. -/
def hmac (key data : List Nat) : List Nat :=
  let k0 : List Nat := if key.length > 64 then hash key else key
  let k : List Nat := k0 ++ List.replicate (64 - k0.length) 0
  let ipad : List Nat := k.map (fun b => b ^^^ 0x36)
  let opad : List Nat := k.map (fun b => b ^^^ 0x5c)
  hash (opad ++ (hash (ipad ++ data) : List Nat))

/-- Source `hashWithHmac(key, data) = hmac(SHA1, key, data)`. -/
def hashWithHmac (key data : List Nat) : List Nat :=
  hmac key data

/-- Source `HmacSHA1(key, data)`: UTF-8 encode both arguments, HMAC, hex. -/
def HmacSHA1 (key data : String) : String :=
  arrayBufferToHex (hashWithHmac (utf8Encode key) (utf8Encode data))

/-- Abstract block absorber: runs `processBlock` on the first 64 bytes of the
remaining message, `fuel` times.  `hashBlocksGo` is exactly this on the
suffix of `p` starting at `pos` (proved below). -/
def absorbGo : Nat → List Nat → List Nat → List Nat
  | 0, v, _ => v
  | fuel + 1, v, m => absorbGo fuel (processBlock v m 0) (m.drop 64)

/-- State after absorbing every complete 64-byte block of `m` from state `v`. -/
def absorb (v m : List Nat) : List Nat :=
  absorbGo (m.length / 64) v m

/-- The 20-byte big-endian serialization of the five state words, the bytes
that `finish` writes into a (large enough) output buffer. -/
def serialize5 (s : List Nat) : List Nat :=
  [s.getD 0 0 % 4294967296 / 16777216 % 256, s.getD 0 0 % 4294967296 / 65536 % 256,
    s.getD 0 0 % 4294967296 / 256 % 256, s.getD 0 0 % 4294967296 % 256,
    s.getD 1 0 % 4294967296 / 16777216 % 256, s.getD 1 0 % 4294967296 / 65536 % 256,
    s.getD 1 0 % 4294967296 / 256 % 256, s.getD 1 0 % 4294967296 % 256,
    s.getD 2 0 % 4294967296 / 16777216 % 256, s.getD 2 0 % 4294967296 / 65536 % 256,
    s.getD 2 0 % 4294967296 / 256 % 256, s.getD 2 0 % 4294967296 % 256,
    s.getD 3 0 % 4294967296 / 16777216 % 256, s.getD 3 0 % 4294967296 / 65536 % 256,
    s.getD 3 0 % 4294967296 / 256 % 256, s.getD 3 0 % 4294967296 % 256,
    s.getD 4 0 % 4294967296 / 16777216 % 256, s.getD 4 0 % 4294967296 / 65536 % 256,
    s.getD 4 0 % 4294967296 / 256 % 256, s.getD 4 0 % 4294967296 % 256]

/-- The simulation relation: hasher `h` is exactly the state of the source
implementation after absorbing the byte sequence `m` from a fresh hasher.
The chaining words hold the compression of the maximal complete-block
initial segment of `m`, the first `m.length % 64` buffer bytes hold the
remaining tail of `m`, and the counters record `m`. -/
def Absorbed (m : List Nat) (h : SHA1) : Prop :=
  h.finished = false ∧
  h.bytesHashed = m.length ∧
  h.bufferLength = m.length % 64 ∧
  h.buffer.length = 128 ∧
  (∀ j, j < h.bufferLength →
    h.buffer.getD j 0 = m.getD (m.length / 64 * 64 + j) 0 % 256) ∧
  h.state = absorb SHA1.stateInit m

/-- Big-endian bytes of the low 32 bits of `v`, as written by
`writeUint32BE`. -/
def be32 (v : Nat) : List Nat :=
  [v % 4294967296 / 16777216 % 256, v % 4294967296 / 65536 % 256,
    v % 4294967296 / 256 % 256, v % 4294967296 % 256]

/-- The Merkle-Damgard padding that `finish` materializes after the
buffered bytes of a message of total length `n`: the `0x80` terminator,
zero fill, and the 64-bit big-endian bit length (`bitLenHi = (n /
0x20000000) | 0`, `bitLenLo = n << 3`). -/
def padTail (n : Nat) : List Nat :=
  128 :: List.replicate ((if n % 64 < 56 then 64 else 128) - n % 64 - 9) 0 ++
    be32 (n / 536870912) ++ be32 (n * 8)

/-- The padded two-block scratch buffer built inside `finish`. -/
def finishBuf (h : SHA1) : List Nat :=
  writeUint32BE (h.bytesHashed * 8 % 4294967296)
    (writeUint32BE (h.bytesHashed / 0x20000000 % 4294967296)
      (zeroFill (h.buffer.set h.bufferLength (0x80 % 256)) (h.bufferLength + 1)
        ((if h.bytesHashed % 64 < 56 then 64 else 128) - 8 - (h.bufferLength + 1)))
      ((if h.bytesHashed % 64 < 56 then 64 else 128) - 8))
    ((if h.bytesHashed % 64 < 56 then 64 else 128) - 4)

/-- Reference SHA-1 digest of the byte sequence `m`: serialize the state
obtained by absorbing the padded message. -/
def sha1Ref (m : List Nat) : List Nat :=
  serialize5 (absorb SHA1.stateInit (m ++ padTail m.length))

/-- Feeding a list of chunks to `update` one call per chunk, in order
(monadic composition of the source `update`). -/
def SHA1.updateChunks (h : SHA1) : List (List Nat) → Except String SHA1
  | [] => Except.ok h
  | c :: rest =>
    match h.update c with
    | Except.ok h' => h'.updateChunks rest
    | Except.error e => Except.error e

/-- Hasher states reachable through the public interface. -/
inductive Reachable : SHA1 → Prop where
  | init : Reachable SHA1.init
  | reset {h : SHA1} : Reachable h → Reachable h.reset
  | clean {h : SHA1} : Reachable h → Reachable h.clean
  | update {h h' : SHA1} {d : List Nat} : Reachable h →
      h.update d = Except.ok h' → Reachable h'
  | finish {h : SHA1} {out : List Nat} : Reachable h → Reachable (h.finish out).1
  | restore {h h' : SHA1} {s : SavedState} : Reachable h → Reachable h' →
      h.saveState = Except.ok s → Reachable (h'.restoreState s)

/-- Master invariant of reachable states: the buffer keeps its 128-byte
capacity, and every unfinished state is exactly the absorption of some byte
sequence. -/
def ReachInv (h : SHA1) : Prop :=
  h.buffer.length = 128 ∧ (h.finished = false → ∃ m, Absorbed m h)

/-- A concrete finished hasher used by the C5 witness. -/
def finishedHasher : SHA1 :=
  { state := SHA1.stateInit, buffer := List.replicate 128 0, bufferLength := 0,
    bytesHashed := 0, finished := true }

def kat1In : String := ""
def kat1Out : String := "da39a3ee5e6b4b0d3255bfef95601890afd80709"
def kat2In : String := "Firefox vs Chrome"
def kat2Out : String := "c4e2f8af05b799135198dd4d29f37d5245a77631"
def kat3In : String := "123456789012345678901234567890123456789012345678901234567890"
def kat3Out : String := "245be30091fd392fe191f4bfcec22dcb30a03ae6"
def kat4In : String := "花澤香菜"
def kat4Out : String := "421145fe4b35eaa6c0cf006afb38fae6d1d2bbae"

def k1Bytes : List Nat := []
def k1Buf : List Nat := [0, 0, 0, 0, 0, 0, 0, 0, 0, 0, 0, 0, 0, 0, 0, 0, 0, 0, 0, 0, 0, 0, 0, 0, 0, 0, 0, 0, 0, 0, 0, 0, 0, 0, 0, 0, 0, 0, 0, 0, 0, 0, 0, 0, 0, 0, 0, 0, 0, 0, 0, 0, 0, 0, 0, 0, 0, 0, 0, 0, 0, 0, 0, 0, 0, 0, 0, 0, 0, 0, 0, 0, 0, 0, 0, 0, 0, 0, 0, 0, 0, 0, 0, 0, 0, 0, 0, 0, 0, 0, 0, 0, 0, 0, 0, 0, 0, 0, 0, 0, 0, 0, 0, 0, 0, 0, 0, 0, 0, 0, 0, 0, 0, 0, 0, 0, 0, 0, 0, 0, 0, 0, 0, 0, 0, 0, 0, 0]
def k1H : SHA1 := { state := SHA1.stateInit, buffer := k1Buf, bufferLength := 0, bytesHashed := 0, finished := false }
def k1Pad : List Nat := [128, 0, 0, 0, 0, 0, 0, 0, 0, 0, 0, 0, 0, 0, 0, 0, 0, 0, 0, 0, 0, 0, 0, 0, 0, 0, 0, 0, 0, 0, 0, 0, 0, 0, 0, 0, 0, 0, 0, 0, 0, 0, 0, 0, 0, 0, 0, 0, 0, 0, 0, 0, 0, 0, 0, 0, 0, 0, 0, 0, 0, 0, 0, 0, 0, 0, 0, 0, 0, 0, 0, 0, 0, 0, 0, 0, 0, 0, 0, 0, 0, 0, 0, 0, 0, 0, 0, 0, 0, 0, 0, 0, 0, 0, 0, 0, 0, 0, 0, 0, 0, 0, 0, 0, 0, 0, 0, 0, 0, 0, 0, 0, 0, 0, 0, 0, 0, 0, 0, 0, 0, 0, 0, 0, 0, 0, 0, 0]
def k1W16 : List Nat := [2147483648, 0, 0, 0, 0, 0, 0, 0, 0, 0, 0, 0, 0, 0, 0, 0]
def k1W : List Nat := [2147483648, 0, 0, 0, 0, 0, 0, 0, 0, 0, 0, 0, 0, 0, 0, 0, 1, 0, 0, 2, 0, 0, 4, 0, 2, 8, 0, 0, 16, 0, 10, 32, 6, 0, 64, 8, 40, 128, 8, 0, 264, 0, 160, 512, 100, 0, 1032, 136, 668, 2048, 128, 40, 4232, 0, 2624, 8192, 1640, 128, 16520, 2176, 10440, 32768, 2216, 128, 67816, 0, 40960, 131200, 25600, 0, 264192, 34816, 171024, 524288, 32896, 10272, 1083584, 0, 671936, 2097280]
def k1T0 : Nat × Nat × Nat × Nat × Nat := (1732584193, (4023233417, (2562383102, (271733878, 3285377520))))
def k1T1 : Nat × Nat × Nat × Nat × Nat := (3881363674, (187730141, (2318029955, (3249529948, 4131346769))))
def k1T2 : Nat × Nat × Nat × Nat × Nat := (2614877553, (1646736209, (3967835682, (1094458778, 720285282))))
def k1T3 : Nat × Nat × Nat × Nat × Nat := (2610768147, (2553007050, (3094080200, (3315808302, 2945618682))))
def k1T4 : Nat × Nat × Nat × Nat × Nat := (1928626413, (1855823748, (2577064689, (2234369050, 3959760153))))
def k1S : List Nat := [3661210606, 1584089869, 844480495, 2506102928, 2950170377]
def k1Dig : List Nat := [218, 57, 163, 238, 94, 107, 75, 13, 50, 85, 191, 239, 149, 96, 24, 144, 175, 216, 7, 9]
def k2Bytes : List Nat := [70, 105, 114, 101, 102, 111, 120, 32, 118, 115, 32, 67, 104, 114, 111, 109, 101]
def k2Buf : List Nat := [70, 105, 114, 101, 102, 111, 120, 32, 118, 115, 32, 67, 104, 114, 111, 109, 101, 0, 0, 0, 0, 0, 0, 0, 0, 0, 0, 0, 0, 0, 0, 0, 0, 0, 0, 0, 0, 0, 0, 0, 0, 0, 0, 0, 0, 0, 0, 0, 0, 0, 0, 0, 0, 0, 0, 0, 0, 0, 0, 0, 0, 0, 0, 0, 0, 0, 0, 0, 0, 0, 0, 0, 0, 0, 0, 0, 0, 0, 0, 0, 0, 0, 0, 0, 0, 0, 0, 0, 0, 0, 0, 0, 0, 0, 0, 0, 0, 0, 0, 0, 0, 0, 0, 0, 0, 0, 0, 0, 0, 0, 0, 0, 0, 0, 0, 0, 0, 0, 0, 0, 0, 0, 0, 0, 0, 0, 0, 0]
def k2H : SHA1 := { state := SHA1.stateInit, buffer := k2Buf, bufferLength := 17, bytesHashed := 17, finished := false }
def k2Pad : List Nat := [70, 105, 114, 101, 102, 111, 120, 32, 118, 115, 32, 67, 104, 114, 111, 109, 101, 128, 0, 0, 0, 0, 0, 0, 0, 0, 0, 0, 0, 0, 0, 0, 0, 0, 0, 0, 0, 0, 0, 0, 0, 0, 0, 0, 0, 0, 0, 0, 0, 0, 0, 0, 0, 0, 0, 0, 0, 0, 0, 0, 0, 0, 0, 136, 0, 0, 0, 0, 0, 0, 0, 0, 0, 0, 0, 0, 0, 0, 0, 0, 0, 0, 0, 0, 0, 0, 0, 0, 0, 0, 0, 0, 0, 0, 0, 0, 0, 0, 0, 0, 0, 0, 0, 0, 0, 0, 0, 0, 0, 0, 0, 0, 0, 0, 0, 0, 0, 0, 0, 0, 0, 0, 0, 0, 0, 0, 0, 0]
def k2W16 : List Nat := [1181315685, 1718581280, 1987256387, 1752330093, 1702887424, 0, 0, 0, 0, 0, 0, 0, 0, 0, 0, 136]
def k2W : List Nat := [1181315685, 1718581280, 1987256387, 1752330093, 1702887424, 0, 0, 0, 0, 0, 0, 0, 0, 0, 0, 136, 1614062668, 473575066, 669401494, 277714498, 4084489524, 1338802988, 555428996, 3874012025, 1609584320, 2051146812, 2183001567, 2667294980, 309113361, 2611145975, 3215487897, 3514584821, 117477339, 2461769467, 266817297, 2373212003, 2775628468, 2059614054, 2557382012, 3511457289, 1079772997, 3705228671, 2645900716, 2430737323, 2832886919, 1532055953, 1615385899, 1956795648, 668281916, 1186767769, 2265004562, 2164305700, 2800873901, 4022310360, 1928716396, 3213688759, 721880602, 4041484866, 465905948, 3278489096, 1024377991, 3071504555, 3959668455, 1631165267, 2038481214, 3065458737, 3055088608, 2829876117, 3212561134, 2725368392, 985286152, 575998097, 3597039841, 2130785511, 1695296981, 358706094, 586090706, 581839050, 1957733631, 2926138947]
def k2T0 : Nat × Nat × Nat × Nat × Nat := (1732584193, (4023233417, (2562383102, (271733878, 3285377520))))
def k2T1 : Nat × Nat × Nat × Nat × Nat := (1057439749, (3670794868, (2224531563, (251051314, 1985762456))))
def k2T2 : Nat × Nat × Nat × Nat × Nat := (3848613469, (1178610378, (196599698, (1870716331, 1293970378))))
def k2T3 : Nat × Nat × Nat × Nat × Nat := (2228956678, (3636261088, (3225782080, (3433361571, 1424256501))))
def k2T4 : Nat × Nat × Nat × Nat × Nat := (1570624942, (367652234, (3101556815, (432089308, 2178192449))))
def k2S : List Nat := [3303209135, 95918355, 1368972621, 703823186, 1168602673]
def k2Dig : List Nat := [196, 226, 248, 175, 5, 183, 153, 19, 81, 152, 221, 77, 41, 243, 125, 82, 69, 167, 118, 49]
def k3Bytes : List Nat := [49, 50, 51, 52, 53, 54, 55, 56, 57, 48, 49, 50, 51, 52, 53, 54, 55, 56, 57, 48, 49, 50, 51, 52, 53, 54, 55, 56, 57, 48, 49, 50, 51, 52, 53, 54, 55, 56, 57, 48, 49, 50, 51, 52, 53, 54, 55, 56, 57, 48, 49, 50, 51, 52, 53, 54, 55, 56, 57, 48]
def k3Buf : List Nat := [49, 50, 51, 52, 53, 54, 55, 56, 57, 48, 49, 50, 51, 52, 53, 54, 55, 56, 57, 48, 49, 50, 51, 52, 53, 54, 55, 56, 57, 48, 49, 50, 51, 52, 53, 54, 55, 56, 57, 48, 49, 50, 51, 52, 53, 54, 55, 56, 57, 48, 49, 50, 51, 52, 53, 54, 55, 56, 57, 48, 0, 0, 0, 0, 0, 0, 0, 0, 0, 0, 0, 0, 0, 0, 0, 0, 0, 0, 0, 0, 0, 0, 0, 0, 0, 0, 0, 0, 0, 0, 0, 0, 0, 0, 0, 0, 0, 0, 0, 0, 0, 0, 0, 0, 0, 0, 0, 0, 0, 0, 0, 0, 0, 0, 0, 0, 0, 0, 0, 0, 0, 0, 0, 0, 0, 0, 0, 0]
def k3H : SHA1 := { state := SHA1.stateInit, buffer := k3Buf, bufferLength := 60, bytesHashed := 60, finished := false }
def k3Pad : List Nat := [49, 50, 51, 52, 53, 54, 55, 56, 57, 48, 49, 50, 51, 52, 53, 54, 55, 56, 57, 48, 49, 50, 51, 52, 53, 54, 55, 56, 57, 48, 49, 50, 51, 52, 53, 54, 55, 56, 57, 48, 49, 50, 51, 52, 53, 54, 55, 56, 57, 48, 49, 50, 51, 52, 53, 54, 55, 56, 57, 48, 128, 0, 0, 0, 0, 0, 0, 0, 0, 0, 0, 0, 0, 0, 0, 0, 0, 0, 0, 0, 0, 0, 0, 0, 0, 0, 0, 0, 0, 0, 0, 0, 0, 0, 0, 0, 0, 0, 0, 0, 0, 0, 0, 0, 0, 0, 0, 0, 0, 0, 0, 0, 0, 0, 0, 0, 0, 0, 0, 0, 0, 0, 0, 0, 0, 0, 1, 224]
def k3W16 : List Nat := [825373492, 892745528, 959459634, 859059510, 926431536, 825373492, 892745528, 959459634, 859059510, 926431536, 825373492, 892745528, 959459634, 859059510, 926431536, 2147483648]
def k3W : List Nat := [825373492, 892745528, 959459634, 859059510, 926431536, 825373492, 892745528, 959459634, 859059510, 926431536, 825373492, 892745528, 959459634, 859059510, 926431536, 2147483648, 268698636, 201589788, 2121561709, 1315465836, 1853126220, 2323940026, 4272202404, 3237543069, 822935913, 3780989281, 1830621677, 4073640470, 37903967, 2841332930, 1454152476, 2642234812, 3964436373, 3946530843, 3233855713, 3034352299, 4082337112, 1204753416, 1538483444, 2669070896, 4012308019, 1178033969, 1628601030, 14664856, 3272883797, 636936032, 3273165259, 1418322820, 3434732623, 3046123669, 202459638, 2129333480, 3167350489, 3799814493, 315371464, 1656959160, 1105429455, 3278453225, 2577955771, 876816830, 4284006748, 358067204, 1381804004, 4177819114, 674854117, 3030217952, 2699645693, 31162845, 3414223195, 1778564664, 22090876, 643640257, 887121235, 2244796822, 3230238647, 677298792, 3331382507, 2377236674, 2798914090, 1521085505]
def k3T0 : Nat × Nat × Nat × Nat × Nat := (1732584193, (4023233417, (2562383102, (271733878, 3285377520))))
def k3T1 : Nat × Nat × Nat × Nat × Nat := (822478580, (218007884, (1701379204, (39939398, 1501920162))))
def k3T2 : Nat × Nat × Nat × Nat × Nat := (3872053702, (1414547687, (2494870243, (2749291477, 3517036231))))
def k3T3 : Nat × Nat × Nat × Nat × Nat := (485015366, (1568452511, (1321101957, (3212100884, 3174907964))))
def k3T4 : Nat × Nat × Nat × Nat × Nat := (1488236306, (158744482, (1963027425, (3865435534, 2474896933))))
def k3S : List Nat := [3220820499, 4181977899, 230443231, 4137169412, 1465307157]
def k3bW16 : List Nat := [0, 0, 0, 0, 0, 0, 0, 0, 0, 0, 0, 0, 0, 0, 0, 480]
def k3bW : List Nat := [0, 0, 0, 0, 0, 0, 0, 0, 0, 0, 0, 0, 0, 0, 0, 480, 0, 0, 960, 0, 0, 1920, 0, 960, 3840, 0, 0, 7680, 0, 3264, 15360, 1088, 0, 30720, 3840, 13056, 61440, 3840, 0, 126720, 0, 52224, 245760, 17280, 0, 495360, 65280, 206464, 983040, 61440, 13056, 2031360, 0, 833536, 3932160, 264960, 61440, 7929600, 1044480, 3376896, 15728640, 1032960, 61440, 32488192, 0, 13369344, 62976000, 4423680, 0, 126812160, 16711680, 52862464, 251658240, 15790080, 3357696, 520062976, 0, 213420032, 1006694400, 67783168]
def k3bT0 : Nat × Nat × Nat × Nat × Nat := (3220820499, (4181977899, (230443231, (4137169412, 1465307157))))
def k3bT1 : Nat × Nat × Nat × Nat × Nat := (3226233826, (462288515, (2105968183, (2126694991, 2531264127))))
def k3bT2 : Nat × Nat × Nat × Nat × Nat := (3965432087, (424718827, (492889525, (1544419723, 1371194140))))
def k3bT3 : Nat × Nat × Nat × Nat × Nat := (3740141981, (702915228, (2065747807, (4102914468, 4138399847))))
def k3bT4 : Nat × Nat × Nat × Nat × Nat := (1684148461, (2562280964, (3553995744, (3626630087, 3645467345))))
def k3bS : List Nat := [610001664, 2449291567, 3784438975, 3468832203, 815807206]
def k3Dig : List Nat := [36, 91, 227, 0, 145, 253, 57, 47, 225, 145, 244, 191, 206, 194, 45, 203, 48, 160, 58, 230]
def k4Bytes : List Nat := [232, 138, 177, 230, 190, 164, 233, 166, 153, 232, 143, 156]
def k4Buf : List Nat := [232, 138, 177, 230, 190, 164, 233, 166, 153, 232, 143, 156, 0, 0, 0, 0, 0, 0, 0, 0, 0, 0, 0, 0, 0, 0, 0, 0, 0, 0, 0, 0, 0, 0, 0, 0, 0, 0, 0, 0, 0, 0, 0, 0, 0, 0, 0, 0, 0, 0, 0, 0, 0, 0, 0, 0, 0, 0, 0, 0, 0, 0, 0, 0, 0, 0, 0, 0, 0, 0, 0, 0, 0, 0, 0, 0, 0, 0, 0, 0, 0, 0, 0, 0, 0, 0, 0, 0, 0, 0, 0, 0, 0, 0, 0, 0, 0, 0, 0, 0, 0, 0, 0, 0, 0, 0, 0, 0, 0, 0, 0, 0, 0, 0, 0, 0, 0, 0, 0, 0, 0, 0, 0, 0, 0, 0, 0, 0]
def k4H : SHA1 := { state := SHA1.stateInit, buffer := k4Buf, bufferLength := 12, bytesHashed := 12, finished := false }
def k4Pad : List Nat := [232, 138, 177, 230, 190, 164, 233, 166, 153, 232, 143, 156, 128, 0, 0, 0, 0, 0, 0, 0, 0, 0, 0, 0, 0, 0, 0, 0, 0, 0, 0, 0, 0, 0, 0, 0, 0, 0, 0, 0, 0, 0, 0, 0, 0, 0, 0, 0, 0, 0, 0, 0, 0, 0, 0, 0, 0, 0, 0, 0, 0, 0, 0, 96, 0, 0, 0, 0, 0, 0, 0, 0, 0, 0, 0, 0, 0, 0, 0, 0, 0, 0, 0, 0, 0, 0, 0, 0, 0, 0, 0, 0, 0, 0, 0, 0, 0, 0, 0, 0, 0, 0, 0, 0, 0, 0, 0, 0, 0, 0, 0, 0, 0, 0, 0, 0, 0, 0, 0, 0, 0, 0, 0, 0, 0, 0, 0, 0]
def k4W16 : List Nat := [3901403622, 3198478758, 2582155164, 2147483648, 0, 0, 0, 0, 0, 0, 0, 0, 0, 0, 0, 96]
def k4W : List Nat := [3901403622, 3198478758, 2582155164, 2147483648, 0, 0, 0, 0, 0, 0, 0, 0, 0, 0, 0, 96, 3804527860, 2101990220, 869343225, 3314088424, 4203980440, 1738686450, 2333209553, 4112993777, 181175821, 3970974011, 2381095953, 2659778507, 742903622, 3567073031, 4005224925, 1213375287, 512336910, 1972835461, 435780750, 1146567614, 1352998164, 3217191700, 1449222014, 46228946, 1289218572, 2745035286, 1965483031, 2234135292, 1670099762, 2891318886, 1190154402, 3105800868, 3487721941, 2841324319, 180915795, 1656366855, 2552870031, 926629350, 2113504686, 14152671, 2186327121, 3828018359, 962876754, 2469220249, 3002169168, 909072620, 3482183296, 1153882729, 3802797686, 3230403679, 3733416911, 1208780316, 794465373, 3196713525, 4031816390, 516072121, 3459127937, 2411076462, 2543965928, 1178671056, 3139452359, 3078839472, 913083329, 1129353872]
def k4T0 : Nat × Nat × Nat × Nat × Nat := (1732584193, (4023233417, (2562383102, (271733878, 3285377520))))
def k4T1 : Nat × Nat × Nat × Nat × Nat := (3373336381, (3204074994, (2155462150, (878995385, 2894096295))))
def k4T2 : Nat × Nat × Nat × Nat × Nat := (2129305155, (3509591584, (3782523866, (1211046305, 254834327))))
def k4T3 : Nat × Nat × Nat × Nat × Nat := (763749808, (3843883799, (163165551, (3211311757, 2132592953))))
def k4T4 : Nat × Nat × Nat × Nat × Nat := (3670811389, (1533558557, (672408428, (3943081584, 234871230))))
def k4S : List Nat := [1108428286, 1261824678, 3234791530, 4214815462, 3520248750]
def k4Dig : List Nat := [66, 17, 69, 254, 75, 53, 234, 166, 192, 207, 0, 106, 251, 56, 250, 230, 209, 210, 187, 174]

set_option maxRecDepth 4000

/-! ### List access toolkit -/

theorem getD_drop (l : List Nat) (n i : Nat) : (l.drop n).getD i 0 = l.getD (n + i) 0 := by
  induction n generalizing l with
  | zero => simp
  | succ n ih =>
    cases l with
    | nil => simp
    | cons a t => simp [Nat.succ_add, ih t]

theorem getD_append_left {l₁ l₂ : List Nat} {i : Nat} (h : i < l₁.length) :
    (l₁ ++ l₂).getD i 0 = l₁.getD i 0 := by
  simp [List.getD_eq_getElem?_getD, List.getElem?_append_left h]

theorem getD_append_right {l₁ l₂ : List Nat} {i : Nat} (h : l₁.length ≤ i) :
    (l₁ ++ l₂).getD i 0 = l₂.getD (i - l₁.length) 0 := by
  simp [List.getD_eq_getElem?_getD, List.getElem?_append_right h]

theorem getD_take_lt {l : List Nat} {n i : Nat} (h : i < n) :
    (l.take n).getD i 0 = l.getD i 0 := by
  simp [List.getD_eq_getElem?_getD, List.getElem?_take_of_lt h]

theorem getD_of_length_le {l : List Nat} {i : Nat} (h : l.length ≤ i) : l.getD i 0 = 0 := by
  simp [List.getD_eq_getElem?_getD, List.getElem?_eq_none h]

theorem getD_set_self {l : List Nat} {i : Nat} (v : Nat) (h : i < l.length) :
    (l.set i v).getD i 0 = v := by
  simp [List.getD_eq_getElem?_getD, List.getElem?_set_self h]

theorem getD_set_ne {l : List Nat} {i j : Nat} (v : Nat) (h : i ≠ j) :
    (l.set i v).getD j 0 = l.getD j 0 := by
  simp [List.getD_eq_getElem?_getD, List.getElem?_set_ne h]

theorem list_eq_of_getD (l₁ l₂ : List Nat) (hlen : l₁.length = l₂.length)
    (h : ∀ j, j < l₁.length → l₁.getD j 0 = l₂.getD j 0) : l₁ = l₂ := by
  apply List.ext_getElem hlen
  intro i h1 h2
  have e := h i h1
  rwa [List.getD_eq_getElem?_getD, List.getD_eq_getElem?_getD,
    List.getElem?_eq_getElem h1, List.getElem?_eq_getElem h2] at e

/-! ### 32-bit arithmetic facts -/

theorem safeAdd_eq (x y : Nat) (hx : x < 4294967296) (hy : y < 4294967296) :
    safeAdd x y = (x + y) % 4294967296 := by
  unfold safeAdd
  dsimp only
  split_ifs <;> omega

theorem safeAdd_lt (x y : Nat) : safeAdd x y < 4294967296 := by
  unfold safeAdd
  dsimp only
  split_ifs <;> omega

theorem leftrotate_lt (x c : Nat) : leftrotate x c < 4294967296 := by
  unfold leftrotate
  have h1 : (x % 4294967296) <<< c % 4294967296 < 2 ^ 32 := by
    have : (4294967296 : Nat) = 2 ^ 32 := by norm_num
    omega
  have h2 : (x % 4294967296) >>> (32 - c) < 2 ^ 32 := by
    rw [Nat.shiftRight_eq_div_pow]
    have : x % 4294967296 < 2 ^ 32 := by
      have : (4294967296 : Nat) = 2 ^ 32 := by norm_num
      omega
    exact Nat.lt_of_le_of_lt (Nat.div_le_self _ _) this
  have := Nat.or_lt_two_pow h1 h2
  omega

/-! ### Splitting the round loop and the block loop -/

theorem roundsGo_add (w : List Nat) (m n i : Nat) (s : Nat × Nat × Nat × Nat × Nat) :
    roundsGo w (m + n) i s = roundsGo w n (m + i) (roundsGo w m i s) := by
  induction m generalizing i s with
  | zero => simp [roundsGo]
  | succ m ih =>
    rw [show m + 1 + n = (m + n) + 1 from by omega]
    rw [show roundsGo w (m + n + 1) i s = roundsGo w (m + n) (i + 1) (sha1Round w i s) from rfl]
    rw [ih]
    rw [show roundsGo w (m + 1) i s = roundsGo w m (i + 1) (sha1Round w i s) from rfl]
    congr 1
    omega

theorem processBlock_congr (v p p' : List Nat) (pos pos' : Nat)
    (h : ∀ j, j < 64 → p.getD (pos + j) 0 % 256 = p'.getD (pos' + j) 0 % 256) :
    processBlock v p pos = processBlock v p' pos' := by
  have h4 : ∀ i t, i < 16 → t < 4 →
      p.getD (pos + i * 4 + t) 0 % 256 = p'.getD (pos' + i * 4 + t) 0 % 256 := by
    intro i t hi ht
    have e := h (i * 4 + t) (by omega)
    rwa [← Nat.add_assoc, ← Nat.add_assoc] at e
  have hw : (List.range 16).map (fun i => readUint32BE p (pos + i * 4)) =
      (List.range 16).map (fun i => readUint32BE p' (pos' + i * 4)) := by
    apply List.map_congr_left
    intro i hi
    have hi16 : i < 16 := by simpa using hi
    have e0 := h4 i 0 hi16 (by omega)
    have e1 := h4 i 1 hi16 (by omega)
    have e2 := h4 i 2 hi16 (by omega)
    have e3 := h4 i 3 hi16 (by omega)
    simp only [Nat.add_zero] at e0
    unfold readUint32BE
    rw [e0, e1, e2, e3]
  unfold processBlock
  rw [hw]

theorem hashBlocksGo_eq (p : List Nat) (fuel : Nat) :
    ∀ v pos, hashBlocksGo p fuel v pos = absorbGo fuel v (p.drop pos) := by
  induction fuel with
  | zero => intro v pos; rfl
  | succ n ih =>
    intro v pos
    rw [show hashBlocksGo p (n + 1) v pos =
        hashBlocksGo p n (processBlock v p pos) (pos + 64) from rfl]
    rw [show absorbGo (n + 1) v (p.drop pos) =
        absorbGo n (processBlock v (p.drop pos) 0) ((p.drop pos).drop 64) from rfl]
    rw [ih (processBlock v p pos) (pos + 64)]
    have hst : processBlock v p pos = processBlock v (p.drop pos) 0 := by
      apply processBlock_congr
      intro j hj
      rw [getD_drop, Nat.zero_add]
    have hdr : p.drop (pos + 64) = (p.drop pos).drop 64 := by
      rw [List.drop_drop, Nat.add_comm]
    rw [hst, hdr]

theorem hashBlocks_fst (v p : List Nat) (pos len : Nat) :
    (hashBlocks v p pos len).1 = absorbGo (len / 64) v (p.drop pos) := by
  unfold hashBlocks
  exact hashBlocksGo_eq p (len / 64) v pos

theorem absorbGo_congr (fuel : Nat) :
    ∀ v m m', (∀ j, m.getD j 0 % 256 = m'.getD j 0 % 256) →
      absorbGo fuel v m = absorbGo fuel v m' := by
  induction fuel with
  | zero => intro v m m' _; rfl
  | succ n ih =>
    intro v m m' h
    rw [show absorbGo (n + 1) v m = absorbGo n (processBlock v m 0) (m.drop 64) from rfl]
    rw [show absorbGo (n + 1) v m' = absorbGo n (processBlock v m' 0) (m'.drop 64) from rfl]
    have hst : processBlock v m 0 = processBlock v m' 0 := by
      apply processBlock_congr
      intro j hj
      simpa using h j
    rw [hst]
    apply ih
    intro j
    rw [getD_drop, getD_drop]
    exact h (64 + j)

theorem absorbGo_take (fuel : Nat) :
    ∀ v m, absorbGo fuel v (m.take (64 * fuel)) = absorbGo fuel v m := by
  induction fuel with
  | zero => intro v m; rfl
  | succ n ih =>
    intro v m
    rw [show absorbGo (n + 1) v (m.take (64 * (n + 1))) =
        absorbGo n (processBlock v (m.take (64 * (n + 1))) 0)
          ((m.take (64 * (n + 1))).drop 64) from rfl]
    rw [show absorbGo (n + 1) v m = absorbGo n (processBlock v m 0) (m.drop 64) from rfl]
    have hst : processBlock v (m.take (64 * (n + 1))) 0 = processBlock v m 0 := by
      apply processBlock_congr
      intro j hj
      rw [getD_take_lt (by omega)]
    have hdr : (m.take (64 * (n + 1))).drop 64 = (m.drop 64).take (64 * n) := by
      rw [List.take_drop, show 64 + 64 * n = 64 * (n + 1) from by ring]
    rw [hst, hdr, ih]

theorem absorbGo_add (k1 k2 : Nat) :
    ∀ v m, absorbGo (k1 + k2) v m = absorbGo k2 (absorbGo k1 v m) (m.drop (64 * k1)) := by
  induction k1 with
  | zero => intro v m; simp [absorbGo]
  | succ k1 ih =>
    intro v m
    rw [show k1 + 1 + k2 = (k1 + k2) + 1 from by omega]
    rw [show absorbGo (k1 + k2 + 1) v m =
        absorbGo (k1 + k2) (processBlock v m 0) (m.drop 64) from rfl]
    rw [ih (processBlock v m 0) (m.drop 64)]
    rw [show absorbGo (k1 + 1) v m = absorbGo k1 (processBlock v m 0) (m.drop 64) from rfl]
    rw [List.drop_drop]
    congr 2
    ring

/-! ### Characterizing the byte-copy loops -/

theorem copyTail_snd (data : List Nat) :
    ∀ buf bufLen, (copyTail buf bufLen data).2 = bufLen + data.length := by
  induction data with
  | nil => intro buf bufLen; simp [copyTail]
  | cons b rest ih =>
    intro buf bufLen
    rw [show copyTail buf bufLen (b :: rest) =
        copyTail (buf.set bufLen (b % 256)) (bufLen + 1) rest from rfl]
    rw [ih]
    simp
    omega

theorem copyTail_length (data : List Nat) :
    ∀ buf bufLen, (copyTail buf bufLen data).1.length = buf.length := by
  induction data with
  | nil => intro buf bufLen; rfl
  | cons b rest ih =>
    intro buf bufLen
    rw [show copyTail buf bufLen (b :: rest) =
        copyTail (buf.set bufLen (b % 256)) (bufLen + 1) rest from rfl]
    rw [ih]
    simp

theorem copyTail_getD (data : List Nat) :
    ∀ buf bufLen j, (copyTail buf bufLen data).1.getD j 0 =
      if bufLen ≤ j ∧ j < bufLen + data.length ∧ j < buf.length then
        data.getD (j - bufLen) 0 % 256
      else buf.getD j 0 := by
  induction data with
  | nil =>
    intro buf bufLen j
    rw [show (copyTail buf bufLen []).1 = buf from rfl]
    simp only [List.length_nil]
    rw [if_neg (by omega)]
  | cons b rest ih =>
    intro buf bufLen j
    rw [show copyTail buf bufLen (b :: rest) =
        copyTail (buf.set bufLen (b % 256)) (bufLen + 1) rest from rfl]
    rw [ih]
    simp only [List.length_set]
    by_cases hj : j = bufLen
    · subst hj
      by_cases hin : j < buf.length
      · rw [if_neg (by omega), if_pos (by simp; omega), getD_set_self _ hin]
        simp
      · rw [if_neg (by omega), if_neg (by simp; omega), List.set_eq_of_length_le (by omega)]
    · by_cases hrange : bufLen + 1 ≤ j ∧ j < bufLen + 1 + rest.length ∧ j < buf.length
      · rw [if_pos hrange, if_pos (by simp; omega)]
        congr 1
        have : j - bufLen = (j - (bufLen + 1)) + 1 := by omega
        rw [this]
        rfl
      · rw [if_neg hrange, if_neg (by simp; omega), getD_set_ne _ (by omega)]

theorem fillLoop_eq (data : List Nat) :
    ∀ buf bufLen, bufLen ≤ 64 →
      fillLoop buf bufLen data =
        ((copyTail buf bufLen (data.take (64 - bufLen))).1,
          min 64 (bufLen + data.length), data.drop (64 - bufLen)) := by
  induction data with
  | nil =>
    intro buf bufLen h
    simp [fillLoop, copyTail, Nat.min_eq_right h]
  | cons b rest ih =>
    intro buf bufLen h
    by_cases hlt : bufLen < 64
    · rw [show fillLoop buf bufLen (b :: rest) =
          if bufLen < 64 then fillLoop (buf.set bufLen (b % 256)) (bufLen + 1) rest
          else (buf, bufLen, b :: rest) from rfl]
      rw [if_pos hlt, ih _ _ (by omega)]
      rw [show 64 - bufLen = (64 - (bufLen + 1)) + 1 from by omega]
      rw [List.take_succ_cons, List.drop_succ_cons]
      rw [show copyTail buf bufLen (b :: rest.take (64 - (bufLen + 1))) =
          copyTail (buf.set bufLen (b % 256)) (bufLen + 1) (rest.take (64 - (bufLen + 1)))
        from rfl]
      have : min 64 (bufLen + 1 + rest.length) = min 64 (bufLen + (b :: rest).length) := by
        simp
        omega
      rw [this]
    · rw [show fillLoop buf bufLen (b :: rest) =
          if bufLen < 64 then fillLoop (buf.set bufLen (b % 256)) (bufLen + 1) rest
          else (buf, bufLen, b :: rest) from rfl]
      rw [if_neg hlt]
      have h64 : bufLen = 64 := by omega
      subst h64
      simp [copyTail]

theorem zeroFill_length (n : Nat) : ∀ buf i, (zeroFill buf i n).length = buf.length := by
  induction n with
  | zero => intro buf i; rfl
  | succ n ih =>
    intro buf i
    rw [show zeroFill buf i (n + 1) = zeroFill (buf.set i 0) (i + 1) n from rfl, ih]
    simp

theorem zeroFill_getD (n : Nat) :
    ∀ buf i j, (zeroFill buf i n).getD j 0 =
      if i ≤ j ∧ j < i + n ∧ j < buf.length then 0 else buf.getD j 0 := by
  induction n with
  | zero =>
    intro buf i j
    rw [show zeroFill buf i 0 = buf from rfl, if_neg (by omega)]
  | succ n ih =>
    intro buf i j
    rw [show zeroFill buf i (n + 1) = zeroFill (buf.set i 0) (i + 1) n from rfl, ih]
    simp only [List.length_set]
    by_cases hj : j = i
    · subst hj
      by_cases hin : j < buf.length
      · rw [if_neg (by omega), if_pos (by omega), getD_set_self _ hin]
      · rw [if_neg (by omega), if_neg (by omega), List.set_eq_of_length_le (by omega)]
    · by_cases hrange : i + 1 ≤ j ∧ j < i + 1 + n ∧ j < buf.length
      · rw [if_pos hrange, if_pos (by omega)]
      · rw [if_neg hrange, if_neg (by omega), getD_set_ne _ (by omega)]

theorem writeUint32BE_length (v : Nat) (out : List Nat) (off : Nat) :
    (writeUint32BE v out off).length = out.length := by
  simp [writeUint32BE]

theorem writeUint32BE_getD (v : Nat) (out : List Nat) (off j : Nat) (hj : j < out.length) :
    (writeUint32BE v out off).getD j 0 =
      if j = off then v % 4294967296 / 16777216 % 256
      else if j = off + 1 then v % 4294967296 / 65536 % 256
      else if j = off + 2 then v % 4294967296 / 256 % 256
      else if j = off + 3 then v % 4294967296 % 256
      else out.getD j 0 := by
  unfold writeUint32BE
  dsimp only
  by_cases h3 : j = off + 3
  · subst h3
    rw [getD_set_self _ (by simp [hj]), if_neg (by omega), if_neg (by omega),
      if_neg (by omega), if_pos rfl]
  · rw [getD_set_ne _ (by omega)]
    by_cases h2 : j = off + 2
    · subst h2
      rw [getD_set_self _ (by simp [hj]), if_neg (by omega), if_neg (by omega), if_pos rfl]
    · rw [getD_set_ne _ (by omega)]
      by_cases h1 : j = off + 1
      · subst h1
        rw [getD_set_self _ (by simp [hj]), if_neg (by omega), if_pos rfl]
      · rw [getD_set_ne _ (by omega)]
        by_cases h0 : j = off
        · subst h0
          rw [getD_set_self _ hj, if_pos rfl]
        · rw [getD_set_ne _ (by omega), if_neg h0, if_neg h1, if_neg h2, if_neg h3]

theorem writeDigest_eq (s out : List Nat) :
    writeDigest s out =
      writeUint32BE (s.getD 4 0) (writeUint32BE (s.getD 3 0) (writeUint32BE (s.getD 2 0)
        (writeUint32BE (s.getD 1 0) (writeUint32BE (s.getD 0 0) out 0) 4) 8) 12) 16 := by
  simp [writeDigest, List.range_succ]

theorem writeDigest_length (s out : List Nat) : (writeDigest s out).length = out.length := by
  rw [writeDigest_eq]
  simp [writeUint32BE_length]

theorem writeDigest_getD (s out : List Nat) (j : Nat) (hj : j < out.length) :
    (writeDigest s out).getD j 0 =
      if j < 20 then (serialize5 s).getD j 0 else out.getD j 0 := by
  rw [writeDigest_eq]
  have l0 : (writeUint32BE (s.getD 0 0) out 0).length = out.length := writeUint32BE_length _ _ _
  have l1 : (writeUint32BE (s.getD 1 0) (writeUint32BE (s.getD 0 0) out 0) 4).length =
      out.length := by rw [writeUint32BE_length, l0]
  have l2 : (writeUint32BE (s.getD 2 0) (writeUint32BE (s.getD 1 0)
      (writeUint32BE (s.getD 0 0) out 0) 4) 8).length = out.length := by
    rw [writeUint32BE_length, l1]
  have l3 : (writeUint32BE (s.getD 3 0) (writeUint32BE (s.getD 2 0) (writeUint32BE (s.getD 1 0)
      (writeUint32BE (s.getD 0 0) out 0) 4) 8) 12).length = out.length := by
    rw [writeUint32BE_length, l2]
  rw [writeUint32BE_getD _ _ _ _ (by rw [l3]; exact hj)]
  rw [writeUint32BE_getD _ _ _ _ (by rw [l2]; exact hj)]
  rw [writeUint32BE_getD _ _ _ _ (by rw [l1]; exact hj)]
  rw [writeUint32BE_getD _ _ _ _ (by rw [l0]; exact hj)]
  rw [writeUint32BE_getD _ _ _ _ hj]
  by_cases h20 : j < 20
  · interval_cases j <;> simp [serialize5]
  · rw [if_neg (fun h => h20 (by omega)), if_neg (fun h => h20 (by omega)),
      if_neg (fun h => h20 (by omega)), if_neg (fun h => h20 (by omega)),
      if_neg (fun h => h20 (by omega)), if_neg (fun h => h20 (by omega)),
      if_neg (fun h => h20 (by omega)), if_neg (fun h => h20 (by omega)),
      if_neg (fun h => h20 (by omega)), if_neg (fun h => h20 (by omega)),
      if_neg (fun h => h20 (by omega)), if_neg (fun h => h20 (by omega)),
      if_neg (fun h => h20 (by omega)), if_neg (fun h => h20 (by omega)),
      if_neg (fun h => h20 (by omega)), if_neg (fun h => h20 (by omega)),
      if_neg (fun h => h20 (by omega)), if_neg (fun h => h20 (by omega)),
      if_neg (fun h => h20 (by omega)), if_neg (fun h => h20 (by omega)),
      if_neg h20]

theorem writeDigest_eq20 (s out : List Nat) (h : out.length = 20) :
    writeDigest s out = serialize5 s := by
  apply list_eq_of_getD
  · rw [writeDigest_length, h]
    rfl
  · intro j hj
    rw [writeDigest_length, h] at hj
    rw [writeDigest_getD s out j (by omega), if_pos hj]

theorem writeDigest_truncated (s out : List Nat) (h : out.length ≤ 20) :
    writeDigest s out = (serialize5 s).take out.length := by
  apply list_eq_of_getD
  · rw [writeDigest_length, List.length_take]
    have : (serialize5 s).length = 20 := rfl
    omega
  · intro j hj
    rw [writeDigest_length] at hj
    rw [writeDigest_getD s out j hj, if_pos (by omega), getD_take_lt hj]

theorem take_append_le {m d : List Nat} {t : Nat} (h : t ≤ m.length) :
    (m ++ d).take t = m.take t := by
  apply list_eq_of_getD
  · simp
    omega
  · intro j hj
    simp only [List.length_take, List.length_append] at hj
    rw [getD_take_lt (by omega), getD_take_lt (by omega), getD_append_left (by omega)]

theorem drop_append_le {m d : List Nat} {t : Nat} (h : t ≤ m.length) :
    (m ++ d).drop t = m.drop t ++ d := by
  apply list_eq_of_getD
  · simp
    omega
  · intro j hj
    simp only [List.length_drop, List.length_append] at hj
    rw [getD_drop]
    by_cases hm : t + j < m.length
    · rw [getD_append_left hm, getD_append_left (by simp; omega), getD_drop]
    · rw [getD_append_right (by omega), getD_append_right (by simp; omega)]
      congr 1
      simp only [List.length_drop]
      omega

theorem absorb_append_blocks (v M rest : List Nat) (hM : M.length % 64 = 0) :
    absorbGo ((M ++ rest).length / 64) v (M ++ rest) =
      absorbGo (rest.length / 64) (absorbGo (M.length / 64) v M) rest := by
  have hsplit : (M ++ rest).length / 64 = M.length / 64 + rest.length / 64 := by
    simp only [List.length_append]
    omega
  rw [hsplit, absorbGo_add]
  have h64 : 64 * (M.length / 64) = M.length := by omega
  rw [h64, List.drop_left]
  congr 1
  rw [← absorbGo_take (M.length / 64) v (M ++ rest), h64,
    take_append_le (Nat.le_refl _), List.take_length,
    ← absorbGo_take (M.length / 64) v M, h64, List.take_length]

theorem phase_small (M rest buf v : List Nat) (hM : M.length % 64 = 0)
    (hbuf : buf.length = 128)
    (hv : v = absorbGo (M.length / 64) SHA1.stateInit M) (hlt : rest.length < 64) :
    (copyTail buf 0 rest).2 = (M ++ rest).length % 64 ∧
    (copyTail buf 0 rest).1.length = 128 ∧
    (∀ j, j < (copyTail buf 0 rest).2 →
      (copyTail buf 0 rest).1.getD j 0 =
        (M ++ rest).getD ((M ++ rest).length / 64 * 64 + j) 0 % 256) ∧
    v = absorb SHA1.stateInit (M ++ rest) := by
  have hsnd := copyTail_snd rest buf 0
  refine ⟨?_, ?_, ?_, ?_⟩
  · rw [hsnd]
    simp only [List.length_append]
    omega
  · rw [copyTail_length, hbuf]
  · intro j hj
    rw [hsnd] at hj
    rw [copyTail_getD rest buf 0 j, if_pos (by omega)]
    have hidx : (M ++ rest).length / 64 * 64 + j = M.length + j := by
      simp only [List.length_append]
      omega
    rw [hidx, getD_append_right (by omega)]
    simp
  · rw [show absorb SHA1.stateInit (M ++ rest) =
        absorbGo ((M ++ rest).length / 64) SHA1.stateInit (M ++ rest) from rfl]
    rw [absorb_append_blocks _ _ _ hM]
    rw [show rest.length / 64 = 0 from by omega]
    rw [show absorbGo 0 (absorbGo (M.length / 64) SHA1.stateInit M) rest =
        absorbGo (M.length / 64) SHA1.stateInit M from rfl]
    exact hv

theorem phase_big (M rest buf v : List Nat) (hM : M.length % 64 = 0)
    (hbuf : buf.length = 128)
    (hv : v = absorbGo (M.length / 64) SHA1.stateInit M) (hge : 64 ≤ rest.length) :
    (copyTail buf 0 (rest.drop (rest.length / 64 * 64))).2 = (M ++ rest).length % 64 ∧
    (copyTail buf 0 (rest.drop (rest.length / 64 * 64))).1.length = 128 ∧
    (∀ j, j < (copyTail buf 0 (rest.drop (rest.length / 64 * 64))).2 →
      (copyTail buf 0 (rest.drop (rest.length / 64 * 64))).1.getD j 0 =
        (M ++ rest).getD ((M ++ rest).length / 64 * 64 + j) 0 % 256) ∧
    (hashBlocks v rest 0 rest.length).1 = absorb SHA1.stateInit (M ++ rest) := by
  have hsnd := copyTail_snd (rest.drop (rest.length / 64 * 64)) buf 0
  have hdlen : (rest.drop (rest.length / 64 * 64)).length = rest.length % 64 := by
    simp only [List.length_drop]
    omega
  refine ⟨?_, ?_, ?_, ?_⟩
  · rw [hsnd, hdlen]
    simp only [List.length_append]
    omega
  · rw [copyTail_length, hbuf]
  · intro j hj
    rw [hsnd, hdlen] at hj
    rw [copyTail_getD _ buf 0 j, if_pos (by rw [hdlen]; omega)]
    rw [Nat.sub_zero, getD_drop]
    have hidx : (M ++ rest).length / 64 * 64 + j = M.length + (rest.length / 64 * 64 + j) := by
      simp only [List.length_append]
      omega
    rw [hidx, getD_append_right (by omega)]
    congr 2
    omega
  · rw [hashBlocks_fst, List.drop_zero]
    rw [show absorb SHA1.stateInit (M ++ rest) =
        absorbGo ((M ++ rest).length / 64) SHA1.stateInit (M ++ rest) from rfl]
    rw [absorb_append_blocks _ _ _ hM, hv]

theorem absorbGo_base (v m X : List Nat) (k : Nat) (hk : 64 * k ≤ m.length) :
    absorbGo k v (m ++ X) = absorbGo k v m := by
  rw [← absorbGo_take k v (m ++ X), take_append_le hk, absorbGo_take]

theorem updateU_absorbed (m d : List Nat) (h : SHA1) (hA : Absorbed m h) :
    Absorbed (m ++ d) (h.updateU d) := by
  obtain ⟨hfin, hbytes, hlen, hbuflen, hpre, hstate⟩ := hA
  have hstate' : h.state = absorbGo (m.length / 64) SHA1.stateInit m := hstate
  have hL : h.bufferLength < 64 := by omega
  unfold SHA1.updateU
  dsimp only
  by_cases hBL : h.bufferLength > 0
  · -- a partial block is buffered
    rw [if_pos hBL, fillLoop_eq d h.buffer h.bufferLength (by omega)]
    dsimp only
    by_cases hfull : 64 ≤ h.bufferLength + d.length
    · -- the buffer fills up to 64 bytes and is compressed
      rw [if_pos (show min 64 (h.bufferLength + d.length) = 64 from by omega)]
      dsimp only
      have htlen : (d.take (64 - h.bufferLength)).length = 64 - h.bufferLength := by
        simp
        omega
      have hM'mod : (m ++ d.take (64 - h.bufferLength)).length % 64 = 0 := by
        simp only [List.length_append, htlen]
        omega
      have hM'div : (m ++ d.take (64 - h.bufferLength)).length / 64 = m.length / 64 + 1 := by
        simp only [List.length_append, htlen]
        omega
      have hst1 : (hashBlocks h.state
          (copyTail h.buffer h.bufferLength (d.take (64 - h.bufferLength))).1 0 64).1 =
          absorbGo ((m ++ d.take (64 - h.bufferLength)).length / 64) SHA1.stateInit
            (m ++ d.take (64 - h.bufferLength)) := by
        rw [hashBlocks_fst, show (64 : Nat) / 64 = 1 from rfl, List.drop_zero]
        rw [hM'div, absorbGo_add (m.length / 64) 1 SHA1.stateInit]
        rw [absorbGo_base _ _ _ _ (by omega), ← hstate']
        rw [drop_append_le (by omega)]
        rw [show absorbGo 1 h.state (m.drop (64 * (m.length / 64)) ++
            d.take (64 - h.bufferLength)) = processBlock h.state
              (m.drop (64 * (m.length / 64)) ++ d.take (64 - h.bufferLength)) 0 from rfl]
        rw [show absorbGo 1 h.state
            (copyTail h.buffer h.bufferLength (d.take (64 - h.bufferLength))).1 =
            processBlock h.state
              (copyTail h.buffer h.bufferLength (d.take (64 - h.bufferLength))).1 0 from rfl]
        apply processBlock_congr
        intro j hj
        simp only [Nat.zero_add]
        rw [copyTail_getD]
        by_cases hjL : j < h.bufferLength
        · rw [if_neg (by omega), hpre j hjL]
          rw [getD_append_left (by simp; omega), getD_drop]
          rw [show 64 * (m.length / 64) + j = m.length / 64 * 64 + j from by ring]
          rw [Nat.mod_mod_of_dvd _ (dvd_refl 256)]
        · rw [if_pos (by rw [htlen]; omega)]
          rw [getD_append_right (by simp; omega)]
          simp only [List.length_drop]
          rw [show j - (m.length - 64 * (m.length / 64)) = j - h.bufferLength from by omega]
          rw [Nat.mod_mod_of_dvd _ (dvd_refl 256)]
      rw [hst1]
      have hMr : (m ++ d.take (64 - h.bufferLength)) ++ d.drop (64 - h.bufferLength) =
          m ++ d := by
        rw [List.append_assoc, List.take_append_drop]
      by_cases hge : (d.drop (64 - h.bufferLength)).length ≥ 64
      · rw [if_pos hge]
        dsimp only
        obtain ⟨c1, c2, c3, c4⟩ := phase_big (m ++ d.take (64 - h.bufferLength))
          (d.drop (64 - h.bufferLength))
          ((copyTail h.buffer h.bufferLength (d.take (64 - h.bufferLength))).1)
          (absorbGo ((m ++ d.take (64 - h.bufferLength)).length / 64) SHA1.stateInit
            (m ++ d.take (64 - h.bufferLength)))
          hM'mod (by rw [copyTail_length]; exact hbuflen) rfl hge
        rw [hMr] at c1 c3 c4
        exact ⟨hfin, by simp [hbytes], c1, c2, c3, c4⟩
      · rw [if_neg hge]
        dsimp only
        obtain ⟨c1, c2, c3, c4⟩ := phase_small (m ++ d.take (64 - h.bufferLength))
          (d.drop (64 - h.bufferLength))
          ((copyTail h.buffer h.bufferLength (d.take (64 - h.bufferLength))).1)
          (absorbGo ((m ++ d.take (64 - h.bufferLength)).length / 64) SHA1.stateInit
            (m ++ d.take (64 - h.bufferLength)))
          hM'mod (by rw [copyTail_length]; exact hbuflen) rfl (by omega)
        rw [hMr] at c1 c3 c4
        exact ⟨hfin, by simp [hbytes], c1, c2, c3, c4⟩
    · -- the buffered block does not fill up: everything lands in the buffer
      rw [if_neg (show ¬ min 64 (h.bufferLength + d.length) = 64 from by omega)]
      dsimp only
      have hnil : d.drop (64 - h.bufferLength) = [] :=
        List.drop_eq_nil_of_le (by omega)
      rw [hnil]
      rw [if_neg (by simp)]
      dsimp only
      rw [show copyTail (copyTail h.buffer h.bufferLength (d.take (64 - h.bufferLength))).1
          (min 64 (h.bufferLength + d.length)) [] =
          ((copyTail h.buffer h.bufferLength (d.take (64 - h.bufferLength))).1,
            min 64 (h.bufferLength + d.length)) from rfl]
      dsimp only
      have htfull : d.take (64 - h.bufferLength) = d := List.take_of_length_le (by omega)
      rw [htfull]
      refine ⟨hfin, by simp [hbytes], by simp [hbytes]; omega, ?_, ?_, ?_⟩
      · rw [copyTail_length]
        exact hbuflen
      · intro j hj
        dsimp only at hj ⊢
        rw [copyTail_getD]
        have hq' : (m ++ d).length / 64 * 64 = m.length / 64 * 64 := by
          simp only [List.length_append]
          omega
        by_cases hjL : j < h.bufferLength
        · rw [if_neg (by omega), hpre j hjL, hq',
            getD_append_left (by omega)]
        · rw [if_pos (by omega), hq',
            getD_append_right (by omega)]
          congr 2
          omega
      · dsimp only
        rw [hstate']
        rw [show absorb SHA1.stateInit (m ++ d) =
            absorbGo ((m ++ d).length / 64) SHA1.stateInit (m ++ d) from rfl]
        rw [show (m ++ d).length / 64 = m.length / 64 from by simp; omega]
        rw [absorbGo_base _ _ _ _ (by omega)]
  · -- nothing buffered
    rw [if_neg hBL]
    dsimp only
    have hL0 : h.bufferLength = 0 := by omega
    have hm0 : m.length % 64 = 0 := by omega
    by_cases hge : d.length ≥ 64
    · rw [if_pos hge]
      dsimp only
      rw [hL0]
      obtain ⟨c1, c2, c3, c4⟩ := phase_big m d h.buffer
        (absorbGo (m.length / 64) SHA1.stateInit m) hm0 hbuflen rfl hge
      rw [← hstate'] at c4
      exact ⟨hfin, by simp [hbytes], c1, c2, c3, c4⟩
    · rw [if_neg hge]
      dsimp only
      rw [hL0]
      obtain ⟨c1, c2, c3, c4⟩ := phase_small m d h.buffer
        (absorbGo (m.length / 64) SHA1.stateInit m) hm0 hbuflen rfl (by omega)
      exact ⟨hfin, by simp [hbytes], c1, c2, c3, by rw [hstate']; exact c4⟩

theorem getD_replicate_zero (k i : Nat) : (List.replicate k (0 : Nat)).getD i 0 = 0 := by
  rw [List.getD_eq_getElem?_getD, List.getElem?_replicate]
  split_ifs <;> rfl

theorem padTail_length (n : Nat) :
    (padTail n).length = (if n % 64 < 56 then 64 else 128) - n % 64 := by
  simp [padTail, be32]
  split_ifs <;> omega

theorem finishBuf_length (h : SHA1) : (finishBuf h).length = h.buffer.length := by
  simp [finishBuf, writeUint32BE_length, zeroFill_length]

theorem finish_unfinished (h : SHA1) (out : List Nat) (hfin : h.finished = false) :
    h.finish out =
      ({ h with
          state := (hashBlocks h.state (finishBuf h) 0
            (if h.bytesHashed % 64 < 56 then 64 else 128)).1,
          buffer := finishBuf h, finished := true },
        writeDigest (hashBlocks h.state (finishBuf h) 0
          (if h.bytesHashed % 64 < 56 then 64 else 128)).1 out) := by
  unfold SHA1.finish finishBuf
  rw [if_neg (by simp [hfin])]

theorem padTail_getD (n i : Nat) :
    (padTail n).getD i 0 =
      if i = 0 then 128
      else if i < (if n % 64 < 56 then 64 else 128) - n % 64 - 8 then 0
      else (be32 (n / 536870912) ++ be32 (n * 8)).getD
        (i - ((if n % 64 < 56 then 64 else 128) - n % 64 - 8)) 0 := by
  unfold padTail
  rw [List.append_assoc, List.cons_append]
  cases i with
  | zero => rw [if_pos rfl, List.getD_cons_zero]
  | succ i =>
    rw [List.getD_cons_succ, if_neg (show ¬ (i + 1 = 0) from by omega)]
    by_cases hz : i < (if n % 64 < 56 then 64 else 128) - n % 64 - 9
    · rw [if_pos (show i + 1 < (if n % 64 < 56 then 64 else 128) - n % 64 - 8 from by
        split_ifs <;> split_ifs at hz <;> omega)]
      rw [getD_append_left (by simp; omega), getD_replicate_zero]
    · rw [if_neg (show ¬ i + 1 < (if n % 64 < 56 then 64 else 128) - n % 64 - 8 from by
        split_ifs <;> split_ifs at hz <;> omega)]
      rw [getD_append_right (by simp; omega)]
      congr 1
      simp only [List.length_replicate]
      split_ifs <;> omega

theorem be32_mod (x : Nat) : be32 (x % 4294967296) = be32 x := by
  simp [be32, Nat.mod_mod_of_dvd]

theorem be32_length (x : Nat) : (be32 x).length = 4 := rfl

theorem writeUint32BE_append (v : Nat) (out : List Nat) (off : Nat)
    (h : off + 4 ≤ out.length) :
    writeUint32BE v out off = out.take off ++ be32 v ++ out.drop (off + 4) := by
  apply list_eq_of_getD
  · simp [writeUint32BE_length, be32]
    omega
  · intro j hj
    rw [writeUint32BE_length] at hj
    rw [writeUint32BE_getD _ _ _ _ hj]
    by_cases hjl : j < off
    · rw [if_neg (by omega), if_neg (by omega), if_neg (by omega), if_neg (by omega),
        List.append_assoc, getD_append_left (by simp; omega), getD_take_lt hjl]
    · by_cases hjr : j < off + 4
      · rw [List.append_assoc, getD_append_right (by simp; omega)]
        rw [getD_append_left (by simp [be32]; omega)]
        simp only [List.length_take]
        rw [Nat.min_eq_left (by omega)]
        by_cases h0 : j = off
        · rw [if_pos h0, h0, Nat.sub_self]
          rfl
        · by_cases h1 : j = off + 1
          · rw [if_neg h0, if_pos h1, h1, show off + 1 - off = 1 from by omega]
            rfl
          · by_cases h2 : j = off + 2
            · rw [if_neg h0, if_neg h1, if_pos h2, h2, show off + 2 - off = 2 from by omega]
              rfl
            · have h3 : j = off + 3 := by omega
              rw [if_neg h0, if_neg h1, if_neg h2, if_pos h3, h3,
                show off + 3 - off = 3 from by omega]
              rfl
      · rw [if_neg (by omega), if_neg (by omega), if_neg (by omega), if_neg (by omega),
          List.append_assoc, getD_append_right (by simp; omega)]
        rw [getD_append_right (by simp [be32]; omega)]
        rw [getD_drop]
        congr 1
        simp only [List.length_take, be32, List.length_cons, List.length_nil]
        omega

theorem finishBuf_take (h : SHA1) (hblen : h.buffer.length = 128)
    (hinv : h.bufferLength = h.bytesHashed % 64) :
    (finishBuf h).take (if h.bytesHashed % 64 < 56 then 64 else 128) =
      h.buffer.take h.bufferLength ++ padTail h.bytesHashed := by
  have hL : h.bufferLength < 64 := by omega
  have hP1 : 64 ≤ (if h.bytesHashed % 64 < 56 then 64 else 128) := by split_ifs <;> omega
  have hP2 : (if h.bytesHashed % 64 < 56 then 64 else 128) ≤ 128 := by split_ifs <;> omega
  have hP3 : h.bufferLength + 9 ≤ (if h.bytesHashed % 64 < 56 then 64 else 128) := by
    split_ifs with hcc <;> omega
  set P := (if h.bytesHashed % 64 < 56 then 64 else 128) with hPdef
  have hZlen : (zeroFill (h.buffer.set h.bufferLength (0x80 % 256)) (h.bufferLength + 1)
      (P - 8 - (h.bufferLength + 1))).length = 128 := by
    rw [zeroFill_length]
    simp [hblen]
  unfold finishBuf
  rw [← hPdef]
  rw [writeUint32BE_append _ _ _ (by rw [writeUint32BE_length, hZlen]; omega)]
  rw [writeUint32BE_append _ _ _ (by rw [hZlen]; omega)]
  have e1 : ((zeroFill (h.buffer.set h.bufferLength (0x80 % 256)) (h.bufferLength + 1)
        (P - 8 - (h.bufferLength + 1))).take (P - 8) ++
      be32 (h.bytesHashed / 0x20000000 % 4294967296) ++
      (zeroFill (h.buffer.set h.bufferLength (0x80 % 256)) (h.bufferLength + 1)
        (P - 8 - (h.bufferLength + 1))).drop (P - 8 + 4)).take (P - 4) =
      (zeroFill (h.buffer.set h.bufferLength (0x80 % 256)) (h.bufferLength + 1)
        (P - 8 - (h.bufferLength + 1))).take (P - 8) ++
      be32 (h.bytesHashed / 0x20000000 % 4294967296) := by
    apply List.take_left'
    simp [hZlen, be32]
    omega
  rw [e1]
  rw [show ((zeroFill (h.buffer.set h.bufferLength (0x80 % 256)) (h.bufferLength + 1)
        (P - 8 - (h.bufferLength + 1))).take (P - 8) ++
      be32 (h.bytesHashed / 0x20000000 % 4294967296) ++
      be32 (h.bytesHashed * 8 % 4294967296) ++
      ((zeroFill (h.buffer.set h.bufferLength (0x80 % 256)) (h.bufferLength + 1)
        (P - 8 - (h.bufferLength + 1))).take (P - 8) ++
      be32 (h.bytesHashed / 0x20000000 % 4294967296) ++
      (zeroFill (h.buffer.set h.bufferLength (0x80 % 256)) (h.bufferLength + 1)
        (P - 8 - (h.bufferLength + 1))).drop (P - 8 + 4)).drop (P - 4 + 4)).take P =
      (zeroFill (h.buffer.set h.bufferLength (0x80 % 256)) (h.bufferLength + 1)
        (P - 8 - (h.bufferLength + 1))).take (P - 8) ++
      be32 (h.bytesHashed / 0x20000000 % 4294967296) ++
      be32 (h.bytesHashed * 8 % 4294967296) from by
    apply List.take_left'
    simp [hZlen, be32]
    omega]
  have eZ : (zeroFill (h.buffer.set h.bufferLength (0x80 % 256)) (h.bufferLength + 1)
      (P - 8 - (h.bufferLength + 1))).take (P - 8) =
      h.buffer.take h.bufferLength ++ 128 :: List.replicate (P - h.bufferLength - 9) 0 := by
    apply list_eq_of_getD
    · simp [hZlen, hblen]
      omega
    · intro j hj
      simp only [List.length_take, hZlen] at hj
      rw [getD_take_lt (by omega), zeroFill_getD]
      simp only [List.length_set, hblen]
      by_cases hjl : j < h.bufferLength
      · rw [if_neg (by omega), getD_set_ne _ (by omega),
          getD_append_left (by simp [hblen]; omega), getD_take_lt hjl]
      · by_cases hje : j = h.bufferLength
        · rw [if_neg (by omega), hje, getD_set_self _ (by omega)]
          rw [getD_append_right (by simp [hblen])]
          simp only [List.length_take, hblen]
          rw [Nat.min_eq_left (by omega), Nat.sub_self, List.getD_cons_zero]
        · rw [if_pos (by omega)]
          rw [getD_append_right (by simp [hblen]; omega)]
          simp only [List.length_take, hblen]
          rw [Nat.min_eq_left (by omega)]
          obtain ⟨t, ht⟩ : ∃ t, j - h.bufferLength = t + 1 := ⟨j - h.bufferLength - 1, by omega⟩
          rw [ht, List.getD_cons_succ, getD_replicate_zero]
  rw [eZ]
  unfold padTail
  rw [← hPdef, be32_mod, be32_mod]
  simp only [List.append_assoc, List.cons_append]
  congr 3
  rw [hinv]

theorem finish_state (h : SHA1) (out : List Nat) (hfin : h.finished = false)
    (hblen : h.buffer.length = 128) (hinv : h.bufferLength = h.bytesHashed % 64) :
    (h.finish out).1.state =
      absorbGo ((if h.bytesHashed % 64 < 56 then 64 else 128) / 64) h.state
        (h.buffer.take h.bufferLength ++ padTail h.bytesHashed) ∧
    (h.finish out).2 = writeDigest ((h.finish out).1.state) out := by
  rw [finish_unfinished h out hfin]
  dsimp only
  rw [hashBlocks_fst, List.drop_zero]
  constructor
  · rw [← absorbGo_take _ h.state (finishBuf h)]
    have h64 : 64 * ((if h.bytesHashed % 64 < 56 then 64 else 128) / 64) =
        (if h.bytesHashed % 64 < 56 then 64 else 128) := by
      split_ifs <;> rfl
    rw [h64, finishBuf_take h hblen hinv]
  · rfl

theorem finish_absorbed (m : List Nat) (h : SHA1) (out : List Nat) (hA : Absorbed m h) :
    (h.finish out).1.state = absorb SHA1.stateInit (m ++ padTail m.length) ∧
    (h.finish out).2 = writeDigest (absorb SHA1.stateInit (m ++ padTail m.length)) out := by
  obtain ⟨hfin, hbytes, hlen, hbuflen, hpre, hstate⟩ := hA
  have hstate' : h.state = absorbGo (m.length / 64) SHA1.stateInit m := hstate
  obtain ⟨hs, hd⟩ := finish_state h out hfin hbuflen (by omega)
  have hS : (h.finish out).1.state = absorb SHA1.stateInit (m ++ padTail m.length) := by
    rw [hs, hbytes, hlen]
    have hptlen : (padTail m.length).length =
        (if m.length % 64 < 56 then 64 else 128) - m.length % 64 := padTail_length _
    have hRlen : (m ++ padTail m.length).length / 64 =
        m.length / 64 + (if m.length % 64 < 56 then 64 else 128) / 64 := by
      simp only [List.length_append, hptlen]
      split_ifs <;> omega
    rw [show absorb SHA1.stateInit (m ++ padTail m.length) =
        absorbGo ((m ++ padTail m.length).length / 64) SHA1.stateInit
          (m ++ padTail m.length) from rfl]
    rw [hRlen, absorbGo_add]
    rw [absorbGo_base SHA1.stateInit m (padTail m.length) (m.length / 64) (by omega),
      ← hstate']
    rw [drop_append_le (by omega)]
    apply absorbGo_congr
    intro j
    by_cases hjl : j < m.length % 64
    · rw [getD_append_left (by simp [hbuflen]; omega), getD_take_lt hjl,
        getD_append_left (by simp; omega), getD_drop]
      rw [hlen] at hpre
      rw [hpre j hjl]
      rw [show 64 * (m.length / 64) + j = m.length / 64 * 64 + j from by ring]
      rw [Nat.mod_mod_of_dvd _ (dvd_refl 256)]
    · by_cases hjr : j < m.length % 64 + (padTail m.length).length
      · rw [getD_append_right (by simp [hbuflen]; omega),
          getD_append_right (by simp; omega)]
        have hidx : j - (List.take (m.length % 64) h.buffer).length =
            j - (m.drop (64 * (m.length / 64))).length := by
          simp only [List.length_take, List.length_drop, hbuflen]
          rw [Nat.min_eq_left (by omega)]
          omega
        rw [hidx]
      · rw [getD_of_length_le (by simp [hbuflen]; omega),
          getD_of_length_le (by simp; omega)]
  exact ⟨hS, by rw [hd, hS]⟩

theorem digest_absorbed (m : List Nat) (h : SHA1) (hA : Absorbed m h) :
    h.digest = sha1Ref m := by
  unfold SHA1.digest sha1Ref
  rw [(finish_absorbed m h (List.replicate 20 0) hA).2,
    writeDigest_eq20 _ _ (by simp)]

theorem absorbed_nil_init : Absorbed [] SHA1.init :=
  ⟨rfl, rfl, rfl, by simp [SHA1.init], fun j hj => absurd hj (by simp [SHA1.init]), rfl⟩

theorem absorbed_reset (h : SHA1) (hblen : h.buffer.length = 128) :
    Absorbed [] h.reset :=
  ⟨rfl, rfl, rfl, hblen, fun j hj => absurd hj (by simp [SHA1.reset]), rfl⟩

theorem update_ok (m d : List Nat) (h : SHA1) (hA : Absorbed m h) :
    h.update d = Except.ok (h.updateU d) := by
  unfold SHA1.update
  rw [if_neg (by simp [hA.1])]

theorem updateChunks_absorbed (cs : List (List Nat)) :
    ∀ (m : List Nat) (h : SHA1), Absorbed m h →
      ∃ h', h.updateChunks cs = Except.ok h' ∧ Absorbed (m ++ cs.flatten) h' := by
  induction cs with
  | nil =>
    intro m h hA
    exact ⟨h, rfl, by simpa using hA⟩
  | cons c rest ih =>
    intro m h hA
    obtain ⟨h', e, hA'⟩ := ih (m ++ c) (h.updateU c) (updateU_absorbed m c h hA)
    refine ⟨h', ?_, ?_⟩
    · rw [show SHA1.updateChunks h (c :: rest) =
          (match h.update c with
            | Except.ok h' => h'.updateChunks rest
            | Except.error e => Except.error e) from rfl]
      rw [update_ok m c h hA]
      exact e
    · rw [List.flatten_cons, ← List.append_assoc]
      exact hA'

theorem reachable_inv {h : SHA1} (hr : Reachable h) : ReachInv h := by
  induction hr with
  | init => exact ⟨by simp [SHA1.init], fun _ => ⟨[], absorbed_nil_init⟩⟩
  | reset hr ih => exact ⟨ih.1, fun _ => ⟨[], absorbed_reset _ ih.1⟩⟩
  | clean hr ih =>
    exact ⟨by simp [SHA1.clean, SHA1.reset], fun _ =>
      ⟨[], absorbed_reset _ (by simp)⟩⟩
  | update hr e ih =>
    rename_i h h' d
    unfold SHA1.update at e
    by_cases hf : h.finished = true
    · rw [if_pos (by simp [hf])] at e
      cases e
    · rw [if_neg (by simp at hf ⊢; exact hf)] at e
      obtain ⟨m, hA⟩ := ih.2 (by simpa using hf)
      cases e
      have hA' := updateU_absorbed m d h hA
      exact ⟨hA'.2.2.2.1, fun _ => ⟨m ++ d, hA'⟩⟩
  | finish hr ih =>
    rename_i h out
    by_cases hf : h.finished = true
    · have : (h.finish out).1 = h := by
        unfold SHA1.finish
        rw [if_pos (by simp [hf])]
      rw [this]
      exact ih
    · have hf' : h.finished = false := by simpa using hf
      rw [finish_unfinished h out hf']
      refine ⟨?_, fun hc => by cases hc⟩
      rw [show ({ h with
          state := (hashBlocks h.state (finishBuf h) 0
            (if h.bytesHashed % 64 < 56 then 64 else 128)).1,
          buffer := finishBuf h, finished := true } : SHA1).buffer = finishBuf h from rfl]
      rw [finishBuf_length]
      exact ih.1
  | restore hr hr' e ih ih' =>
    rename_i h h' s
    unfold SHA1.saveState at e
    by_cases hf : h.finished = true
    · rw [if_pos (by simp [hf])] at e
      cases e
    · rw [if_neg (by simp at hf ⊢; exact hf)] at e
      obtain ⟨m, hA⟩ := ih.2 (by simpa using hf)
      cases e
      obtain ⟨hfin, hbytes, hlen, hbuflen, hpre, hstate⟩ := hA
      by_cases hb : h.bufferLength > 0
      · have hrest : h'.restoreState
            { state := h.state,
              buffer := if h.bufferLength > 0 then some h.buffer else none,
              bufferLength := h.bufferLength, bytesHashed := h.bytesHashed } =
            { state := h.state, buffer := h.buffer ++ h'.buffer.drop h.buffer.length,
              bufferLength := h.bufferLength, bytesHashed := h.bytesHashed,
              finished := false } := by
          unfold SHA1.restoreState
          rw [if_pos hb]
        rw [hrest]
        refine ⟨by simp [hbuflen, ih'.1], fun _ => ⟨m, rfl, hbytes, hlen,
          by simp [hbuflen, ih'.1], ?_, hstate⟩⟩
        intro j hj
        dsimp only at hj ⊢
        rw [getD_append_left (by omega)]
        exact hpre j hj
      · have hrest : h'.restoreState
            { state := h.state,
              buffer := if h.bufferLength > 0 then some h.buffer else none,
              bufferLength := h.bufferLength, bytesHashed := h.bytesHashed } =
            { state := h.state, buffer := h'.buffer,
              bufferLength := h.bufferLength, bytesHashed := h.bytesHashed,
              finished := false } := by
          unfold SHA1.restoreState
          rw [if_neg hb]
        rw [hrest]
        refine ⟨ih'.1, fun _ => ⟨m, rfl, hbytes, hlen, ih'.1, ?_, hstate⟩⟩
        intro j hj
        dsimp only at hj
        omega

theorem finish_flag (h : SHA1) (out : List Nat) : (h.finish out).1.finished = true := by
  by_cases hf : h.finished = true
  · have e : h.finish out = (h, writeDigest h.state out) := by
      unfold SHA1.finish
      rw [if_pos (by simp [hf])]
    rw [e]
    exact hf
  · rw [finish_unfinished h out (by simpa using hf)]

theorem finish_snd (h : SHA1) (out : List Nat) :
    (h.finish out).2 = writeDigest (h.finish out).1.state out := by
  by_cases hf : h.finished = true
  · have e : h.finish out = (h, writeDigest h.state out) := by
      unfold SHA1.finish
      rw [if_pos (by simp [hf])]
    rw [e]
  · rw [finish_unfinished h out (by simpa using hf)]

theorem finish_fst_finished (h : SHA1) (out : List Nat) (hf : h.finished = true) :
    h.finish out = (h, writeDigest h.state out) := by
  unfold SHA1.finish
  rw [if_pos (by simp [hf])]

theorem hash_length (m : List Nat) : (hash m).length = 20 := by
  unfold hash SHA1.digest
  rw [finish_snd, writeDigest_length]
  simp

/-! ### Claim theorems -/

/-- C7: `safeAdd` is addition modulo `2 ^ 32` on 32-bit words (wraparound,
not saturating), and consequently the round computation
`temp = rotl5(a) + f + e + k + w[i]` — a nest of `safeAdd`s in the source —
is the plain sum of its five operands modulo `2 ^ 32`; the final
accumulation into the state words is a direct `safeAdd` and is covered by
the first conjunct. -/
theorem safeAdd_wraps (x y : Nat) (hx : x < 4294967296) (hy : y < 4294967296) :
    safeAdd x y = (x + y) % 4294967296 ∧
    (∀ a f e k w, a < 4294967296 → f < 4294967296 → e < 4294967296 →
      k < 4294967296 → w < 4294967296 →
      safeAdd (leftrotate a 5) (safeAdd f (safeAdd e (safeAdd k w))) =
        (leftrotate a 5 + f + e + k + w) % 4294967296) := by
  refine ⟨safeAdd_eq x y hx hy, ?_⟩
  intro a f e k w ha hf he hk hw
  rw [safeAdd_eq k w hk hw, safeAdd_eq e _ he (by omega),
    safeAdd_eq f _ hf (by omega),
    safeAdd_eq _ _ (leftrotate_lt a 5) (by omega)]
  omega

/-- Witness for C7 at concrete inputs, exercising both conjuncts. -/
theorem safeAdd_wraps_witness :
    safeAdd 4294967295 4294967290 = (4294967295 + 4294967290) % 4294967296 ∧
    safeAdd (leftrotate 7 5) (safeAdd 11 (safeAdd 13 (safeAdd 17 19))) =
      (leftrotate 7 5 + 11 + 13 + 17 + 19) % 4294967296 :=
  ⟨(safeAdd_wraps 4294967295 4294967290 (by decide) (by decide)).1,
    (safeAdd_wraps 4294967295 4294967290 (by decide) (by decide)).2 7 11 13 17 19
      (by decide) (by decide) (by decide) (by decide) (by decide)⟩

/-- C5: `update` on a finished hasher signals the source's error (the
embedding is purely functional, so the hasher value itself is untouched). -/
theorem update_after_finish_errors (h : SHA1) (d : List Nat)
    (hf : h.finished = true) : h.update d = Except.error updateErrMsg := by
  unfold SHA1.update
  rw [if_pos (by simp [hf])]

/-- Witness for C5 on a concrete finished hasher. -/
theorem update_after_finish_errors_witness :
    SHA1.update finishedHasher [0] = Except.error updateErrMsg :=
  update_after_finish_errors finishedHasher [0] rfl

/-- C3: `finish` is idempotent: a second `finish` (with a 20-byte output
buffer) returns the very same hasher — state, buffer, counters and flag
unchanged, with no reprocessing — and writes the same 20 digest bytes. -/
theorem finish_idempotent (h : SHA1) (out out' : List Nat)
    (h1 : out.length = 20) (h2 : out'.length = 20) :
    (h.finish out).1.finish out' = h.finish out := by
  have wd2 : ∀ s : List Nat, writeDigest s out' = writeDigest s out := fun s => by
    rw [writeDigest_eq20 s out' h2, writeDigest_eq20 s out h1]
  conv_lhs => rw [finish_fst_finished ((h.finish out).1) out' (finish_flag h out)]
  rw [wd2 ((h.finish out).1.state)]
  rw [← finish_snd h out]

/-- Witness for C3 on concrete buffers. -/
theorem finish_idempotent_witness :
    (SHA1.init.finish (List.replicate 20 0)).1.finish (List.replicate 20 7) =
      SHA1.init.finish (List.replicate 20 0) :=
  finish_idempotent SHA1.init _ _ (by decide) (by decide)

/-- C6 (amended): `finish` performs no validation of the output buffer
length: it always proceeds (there is no error path), the hasher is
finalized, and byte stores outside the buffer are silently dropped, so the
output keeps its length and a buffer shorter than 20 bytes receives only
the corresponding prefix of the digest. -/
theorem finish_no_output_length_check (h : SHA1) (out : List Nat) :
    (h.finish out).1.finished = true ∧
    (h.finish out).2.length = out.length ∧
    (out.length ≤ 20 →
      (h.finish out).2 = (serialize5 (h.finish out).1.state).take out.length) := by
  by_cases hf : h.finished = true
  · rw [finish_fst_finished h out hf]
    dsimp only
    exact ⟨hf, writeDigest_length h.state out,
      fun hle => writeDigest_truncated h.state out hle⟩
  · rw [finish_unfinished h out (by simpa using hf)]
    dsimp only
    exact ⟨rfl, writeDigest_length _ out, fun hle => writeDigest_truncated _ out hle⟩

/-- Witness for C6 (amended) on a concrete short buffer, with the inner
implication discharged. -/
theorem finish_no_output_length_check_witness :
    (SHA1.init.finish (List.replicate 3 0)).1.finished = true ∧
    (SHA1.init.finish (List.replicate 3 0)).2.length = (List.replicate 3 0).length ∧
    (SHA1.init.finish (List.replicate 3 0)).2 =
      (serialize5 (SHA1.init.finish (List.replicate 3 0)).1.state).take
        (List.replicate 3 0).length :=
  ⟨(finish_no_output_length_check SHA1.init (List.replicate 3 0)).1,
    (finish_no_output_length_check SHA1.init (List.replicate 3 0)).2.1,
    (finish_no_output_length_check SHA1.init (List.replicate 3 0)).2.2 (by decide)⟩

/-- C6 (counterexample to the claim as stated): on a concrete 5-byte output
buffer, `finish` does not fail — it proceeds, marks the hasher finished,
and silently truncates the digest to the 5 bytes that fit. -/
theorem finish_short_buffer_counterexample :
    (SHA1.init.finish (List.replicate 5 0)).1.finished = true ∧
    (SHA1.init.finish (List.replicate 5 0)).2.length = 5 := by
  rw [finish_unfinished SHA1.init (List.replicate 5 0) rfl]
  exact ⟨rfl, by rw [writeDigest_length]; rfl⟩

/-- C4: on the first `finish` of an unfinished (reachable) hasher, the
padded length is 64 bytes when the buffered length modulo 64 is below 56
and 128 bytes otherwise; the compression engine is run, from the current
state, over exactly the buffered bytes followed by `0x80`, zero fill, and
the 64-bit big-endian bit length (high word `bytesHashed / 2 ^ 29`, low
word `bytesHashed * 8`, both modulo `2 ^ 32`); and with a 20-byte output
buffer the digest written is the big-endian serialization of the five
resulting state words. -/
theorem finish_padding_spec (m : List Nat) (h : SHA1) (out : List Nat)
    (hA : Absorbed m h) :
    (h.finish out).1.state =
      absorbGo ((if h.bufferLength % 64 < 56 then 64 else 128) / 64) h.state
        (h.buffer.take h.bufferLength ++
          0x80 :: List.replicate
            ((if h.bufferLength % 64 < 56 then 64 else 128) - h.bufferLength - 9) 0 ++
          be32 (h.bytesHashed / 536870912) ++ be32 (h.bytesHashed * 8)) ∧
    (out.length = 20 → (h.finish out).2 = serialize5 ((h.finish out).1.state)) := by
  obtain ⟨hfin, hbytes, hlen, hbuflen, hpre, hstate⟩ := hA
  obtain ⟨hs, hd⟩ := finish_state h out hfin hbuflen (by omega)
  constructor
  · rw [hs]
    have hcond : (if h.bufferLength % 64 < 56 then (64 : Nat) else 128) =
        (if h.bytesHashed % 64 < 56 then 64 else 128) := by
      rw [hlen, hbytes, Nat.mod_mod_of_dvd _ (dvd_refl 64)]
    have hplist : padTail h.bytesHashed =
        0x80 :: List.replicate
          ((if h.bufferLength % 64 < 56 then 64 else 128) - h.bufferLength - 9) 0 ++
          be32 (h.bytesHashed / 536870912) ++ be32 (h.bytesHashed * 8) := by
      unfold padTail
      rw [hcond, hlen, hbytes]
    rw [hplist, hcond]
    simp only [List.append_assoc]
  · intro h20
    rw [hd, writeDigest_eq20 _ _ h20]

/-- Witness for C4 on the fresh hasher. -/
theorem finish_padding_spec_witness :
    (SHA1.init.finish (List.replicate 20 0)).1.state =
      absorbGo ((if SHA1.init.bufferLength % 64 < 56 then 64 else 128) / 64)
        SHA1.init.state
        (SHA1.init.buffer.take SHA1.init.bufferLength ++
          0x80 :: List.replicate
            ((if SHA1.init.bufferLength % 64 < 56 then 64 else 128) -
              SHA1.init.bufferLength - 9) 0 ++
          be32 (SHA1.init.bytesHashed / 536870912) ++
          be32 (SHA1.init.bytesHashed * 8)) ∧
    (SHA1.init.finish (List.replicate 20 0)).2 =
      serialize5 ((SHA1.init.finish (List.replicate 20 0)).1.state) :=
  ⟨(finish_padding_spec [] SHA1.init (List.replicate 20 0) absorbed_nil_init).1,
    (finish_padding_spec [] SHA1.init (List.replicate 20 0) absorbed_nil_init).2
      (by decide)⟩

/-- C2: chunking independence of the incremental interface: for every way
of splitting a message into chunks, one `update` per chunk followed by
`digest()` on a fresh hasher produces the same digest as a single `update`
of the whole message. -/
theorem update_chunking_independent (chunks : List (List Nat)) :
    (SHA1.init.updateChunks chunks).map SHA1.digest =
      (SHA1.init.update chunks.flatten).map SHA1.digest := by
  obtain ⟨h', e, hA'⟩ := updateChunks_absorbed chunks [] SHA1.init absorbed_nil_init
  rw [e, update_ok [] chunks.flatten SHA1.init absorbed_nil_init]
  dsimp [Except.map]
  rw [digest_absorbed chunks.flatten h' (by simpa using hA'),
    digest_absorbed chunks.flatten _
      (by simpa using updateU_absorbed [] chunks.flatten SHA1.init absorbed_nil_init)]

/-- C9: `reset` reinitializes the state words, zeroes both counters, clears
the finished flag, always succeeds, and erases all influence of prior
state: re-hashing any message after `reset` gives the same digest as a
fresh hasher. -/
theorem reset_no_state_leakage (h : SHA1) (hr : Reachable h) (m : List Nat) :
    (h.reset.update m).map SHA1.digest = (SHA1.init.update m).map SHA1.digest ∧
    h.reset.state = SHA1.stateInit ∧ h.reset.bufferLength = 0 ∧
    h.reset.bytesHashed = 0 ∧ h.reset.finished = false := by
  have hinv := reachable_inv hr
  have hA : Absorbed [] h.reset := absorbed_reset h hinv.1
  refine ⟨?_, rfl, rfl, rfl, rfl⟩
  rw [update_ok [] m _ hA, update_ok [] m _ absorbed_nil_init]
  dsimp [Except.map]
  rw [digest_absorbed m _ (by simpa using updateU_absorbed [] m h.reset hA),
    digest_absorbed m _ (by simpa using updateU_absorbed [] m SHA1.init absorbed_nil_init)]

/-- Witness for C9 on a concrete reachable hasher and message. -/
theorem reset_no_state_leakage_witness :
    (SHA1.init.reset.update [1, 2, 3]).map SHA1.digest =
      (SHA1.init.update [1, 2, 3]).map SHA1.digest ∧
    SHA1.init.reset.state = SHA1.stateInit :=
  ⟨(reset_no_state_leakage SHA1.init Reachable.init [1, 2, 3]).1,
    (reset_no_state_leakage SHA1.init Reachable.init [1, 2, 3]).2.1⟩

/-- C8: HMAC-SHA1 with a key longer than the block size (64 bytes) equals
HMAC-SHA1 with the key's own SHA-1 digest as the effective key (the
construction, modelled from the spec since `@stablelib/hmac` is not part of
this repository, is `Hash(opad ++ Hash(ipad ++ msg))` over the zero-padded
key xored with `0x5c`/`0x36`). -/
theorem hmac_long_key (key data : List Nat) (hk : key.length > 64) :
    hashWithHmac key data = hashWithHmac (hash key) data := by
  unfold hashWithHmac hmac
  dsimp only
  rw [if_pos hk, if_neg (by rw [hash_length]; omega)]

/-- Witness for C8 with a concrete 65-byte key. -/
theorem hmac_long_key_witness :
    hashWithHmac (List.replicate 65 7) [1, 2] =
      hashWithHmac (hash (List.replicate 65 7)) [1, 2] :=
  hmac_long_key (List.replicate 65 7) [1, 2] (by decide)

/-- C10: in every reachable hasher state with the finished flag clear, the
buffer length is below 64 and equals the byte counter modulo 64 — which is
why `finish` testing `bytesHashed % 64 < 56` agrees with the spec's test on
the buffered length. -/
theorem reachable_buffer_invariant (h : SHA1) (hr : Reachable h)
    (hf : h.finished = false) :
    h.bufferLength < 64 ∧ h.bufferLength = h.bytesHashed % 64 := by
  obtain ⟨m, hA⟩ := (reachable_inv hr).2 hf
  obtain ⟨-, hbytes, hlen, -, -, -⟩ := hA
  constructor <;> omega

/-- Witness for C10 at the freshly constructed hasher. -/
theorem reachable_buffer_invariant_witness :
    SHA1.init.bufferLength < 64 ∧
    SHA1.init.bufferLength = SHA1.init.bytesHashed % 64 :=
  reachable_buffer_invariant SHA1.init Reachable.init rfl

/-! ### Known-answer vectors (C1) -/
theorem k1Block : processBlock k1H.state k1Pad 0 = k1S := by
  have w16 : (List.range 16).map (fun i => readUint32BE k1Pad (0 + i * 4)) = k1W16 := by
    decide
  have w80 : extendW 64 k1W16 = k1W := by decide
  have t0 : (k1H.state.getD 0 0 % 4294967296, k1H.state.getD 1 0 % 4294967296,
      k1H.state.getD 2 0 % 4294967296, k1H.state.getD 3 0 % 4294967296,
      k1H.state.getD 4 0 % 4294967296) = k1T0 := by decide
  have r1 : roundsGo k1W 20 0 k1T0 = k1T1 := by decide
  have r2 : roundsGo k1W 20 20 k1T1 = k1T2 := by decide
  have r3 : roundsGo k1W 20 40 k1T2 = k1T3 := by decide
  have r4 : roundsGo k1W 20 60 k1T3 = k1T4 := by decide
  have hr : roundsGo k1W 80 0 k1T0 = k1T4 := by
    rw [show (80 : Nat) = 20 + 60 from rfl, roundsGo_add, r1]
    norm_num
    rw [show (60 : Nat) = 20 + 40 from rfl, roundsGo_add, r2]
    norm_num
    rw [show (40 : Nat) = 20 + 20 from rfl, roundsGo_add, r3]
    norm_num
    rw [r4]
  unfold processBlock
  dsimp only
  rw [w16, w80, t0, hr]
  decide

theorem k2Block : processBlock k2H.state k2Pad 0 = k2S := by
  have w16 : (List.range 16).map (fun i => readUint32BE k2Pad (0 + i * 4)) = k2W16 := by
    decide
  have w80 : extendW 64 k2W16 = k2W := by decide
  have t0 : (k2H.state.getD 0 0 % 4294967296, k2H.state.getD 1 0 % 4294967296,
      k2H.state.getD 2 0 % 4294967296, k2H.state.getD 3 0 % 4294967296,
      k2H.state.getD 4 0 % 4294967296) = k2T0 := by decide
  have r1 : roundsGo k2W 20 0 k2T0 = k2T1 := by decide
  have r2 : roundsGo k2W 20 20 k2T1 = k2T2 := by decide
  have r3 : roundsGo k2W 20 40 k2T2 = k2T3 := by decide
  have r4 : roundsGo k2W 20 60 k2T3 = k2T4 := by decide
  have hr : roundsGo k2W 80 0 k2T0 = k2T4 := by
    rw [show (80 : Nat) = 20 + 60 from rfl, roundsGo_add, r1]
    norm_num
    rw [show (60 : Nat) = 20 + 40 from rfl, roundsGo_add, r2]
    norm_num
    rw [show (40 : Nat) = 20 + 20 from rfl, roundsGo_add, r3]
    norm_num
    rw [r4]
  unfold processBlock
  dsimp only
  rw [w16, w80, t0, hr]
  decide

theorem k3Block : processBlock k3H.state k3Pad 0 = k3S := by
  have w16 : (List.range 16).map (fun i => readUint32BE k3Pad (0 + i * 4)) = k3W16 := by
    decide
  have w80 : extendW 64 k3W16 = k3W := by decide
  have t0 : (k3H.state.getD 0 0 % 4294967296, k3H.state.getD 1 0 % 4294967296,
      k3H.state.getD 2 0 % 4294967296, k3H.state.getD 3 0 % 4294967296,
      k3H.state.getD 4 0 % 4294967296) = k3T0 := by decide
  have r1 : roundsGo k3W 20 0 k3T0 = k3T1 := by decide
  have r2 : roundsGo k3W 20 20 k3T1 = k3T2 := by decide
  have r3 : roundsGo k3W 20 40 k3T2 = k3T3 := by decide
  have r4 : roundsGo k3W 20 60 k3T3 = k3T4 := by decide
  have hr : roundsGo k3W 80 0 k3T0 = k3T4 := by
    rw [show (80 : Nat) = 20 + 60 from rfl, roundsGo_add, r1]
    norm_num
    rw [show (60 : Nat) = 20 + 40 from rfl, roundsGo_add, r2]
    norm_num
    rw [show (40 : Nat) = 20 + 20 from rfl, roundsGo_add, r3]
    norm_num
    rw [r4]
  unfold processBlock
  dsimp only
  rw [w16, w80, t0, hr]
  decide

theorem k3bBlock : processBlock k3S k3Pad 64 = k3bS := by
  have w16 : (List.range 16).map (fun i => readUint32BE k3Pad (64 + i * 4)) = k3bW16 := by
    decide
  have w80 : extendW 64 k3bW16 = k3bW := by decide
  have t0 : (k3S.getD 0 0 % 4294967296, k3S.getD 1 0 % 4294967296,
      k3S.getD 2 0 % 4294967296, k3S.getD 3 0 % 4294967296,
      k3S.getD 4 0 % 4294967296) = k3bT0 := by decide
  have r1 : roundsGo k3bW 20 0 k3bT0 = k3bT1 := by decide
  have r2 : roundsGo k3bW 20 20 k3bT1 = k3bT2 := by decide
  have r3 : roundsGo k3bW 20 40 k3bT2 = k3bT3 := by decide
  have r4 : roundsGo k3bW 20 60 k3bT3 = k3bT4 := by decide
  have hr : roundsGo k3bW 80 0 k3bT0 = k3bT4 := by
    rw [show (80 : Nat) = 20 + 60 from rfl, roundsGo_add, r1]
    norm_num
    rw [show (60 : Nat) = 20 + 40 from rfl, roundsGo_add, r2]
    norm_num
    rw [show (40 : Nat) = 20 + 20 from rfl, roundsGo_add, r3]
    norm_num
    rw [r4]
  unfold processBlock
  dsimp only
  rw [w16, w80, t0, hr]
  decide

theorem k4Block : processBlock k4H.state k4Pad 0 = k4S := by
  have w16 : (List.range 16).map (fun i => readUint32BE k4Pad (0 + i * 4)) = k4W16 := by
    decide
  have w80 : extendW 64 k4W16 = k4W := by decide
  have t0 : (k4H.state.getD 0 0 % 4294967296, k4H.state.getD 1 0 % 4294967296,
      k4H.state.getD 2 0 % 4294967296, k4H.state.getD 3 0 % 4294967296,
      k4H.state.getD 4 0 % 4294967296) = k4T0 := by decide
  have r1 : roundsGo k4W 20 0 k4T0 = k4T1 := by decide
  have r2 : roundsGo k4W 20 20 k4T1 = k4T2 := by decide
  have r3 : roundsGo k4W 20 40 k4T2 = k4T3 := by decide
  have r4 : roundsGo k4W 20 60 k4T3 = k4T4 := by decide
  have hr : roundsGo k4W 80 0 k4T0 = k4T4 := by
    rw [show (80 : Nat) = 20 + 60 from rfl, roundsGo_add, r1]
    norm_num
    rw [show (60 : Nat) = 20 + 40 from rfl, roundsGo_add, r2]
    norm_num
    rw [show (40 : Nat) = 20 + 20 from rfl, roundsGo_add, r3]
    norm_num
    rw [r4]
  unfold processBlock
  dsimp only
  rw [w16, w80, t0, hr]
  decide

theorem sha1_kat1 : sha1 kat1In = kat1Out := by
  have e1 : utf8Encode kat1In = k1Bytes := by decide
  have e2 : SHA1.init.updateU k1Bytes = k1H := by decide
  have e4 : finishBuf k1H = k1Pad := by decide
  have eP : (if k1H.bytesHashed % 64 < 56 then (64 : Nat) else 128) = 64 := by decide
  have e6 : (SHA1.finish k1H (List.replicate 20 0)).2 = k1Dig := by
    rw [finish_unfinished k1H (List.replicate 20 0) rfl]
    dsimp only
    rw [e4, eP]
    rw [show (hashBlocks k1H.state k1Pad 0 64).1 =
        processBlock k1H.state k1Pad 0 from rfl]
    rw [k1Block]
    decide
  unfold sha1 hash SHA1.digest
  rw [e1, e2, e6]
  decide

theorem sha1_kat2 : sha1 kat2In = kat2Out := by
  have e1 : utf8Encode kat2In = k2Bytes := by decide
  have e2 : SHA1.init.updateU k2Bytes = k2H := by decide
  have e4 : finishBuf k2H = k2Pad := by decide
  have eP : (if k2H.bytesHashed % 64 < 56 then (64 : Nat) else 128) = 64 := by decide
  have e6 : (SHA1.finish k2H (List.replicate 20 0)).2 = k2Dig := by
    rw [finish_unfinished k2H (List.replicate 20 0) rfl]
    dsimp only
    rw [e4, eP]
    rw [show (hashBlocks k2H.state k2Pad 0 64).1 =
        processBlock k2H.state k2Pad 0 from rfl]
    rw [k2Block]
    decide
  unfold sha1 hash SHA1.digest
  rw [e1, e2, e6]
  decide

theorem sha1_kat3 : sha1 kat3In = kat3Out := by
  have e1 : utf8Encode kat3In = k3Bytes := by decide
  have e2 : SHA1.init.updateU k3Bytes = k3H := by decide
  have e4 : finishBuf k3H = k3Pad := by decide
  have eP : (if k3H.bytesHashed % 64 < 56 then (64 : Nat) else 128) = 128 := by decide
  have e6 : (SHA1.finish k3H (List.replicate 20 0)).2 = k3Dig := by
    rw [finish_unfinished k3H (List.replicate 20 0) rfl]
    dsimp only
    rw [e4, eP]
    rw [show (hashBlocks k3H.state k3Pad 0 128).1 =
        processBlock (processBlock k3H.state k3Pad 0) k3Pad 64 from rfl]
    rw [k3Block, k3bBlock]
    decide
  unfold sha1 hash SHA1.digest
  rw [e1, e2, e6]
  decide

theorem sha1_kat4 : sha1 kat4In = kat4Out := by
  have e1 : utf8Encode kat4In = k4Bytes := by decide
  have e2 : SHA1.init.updateU k4Bytes = k4H := by decide
  have e4 : finishBuf k4H = k4Pad := by decide
  have eP : (if k4H.bytesHashed % 64 < 56 then (64 : Nat) else 128) = 64 := by decide
  have e6 : (SHA1.finish k4H (List.replicate 20 0)).2 = k4Dig := by
    rw [finish_unfinished k4H (List.replicate 20 0) rfl]
    dsimp only
    rw [e4, eP]
    rw [show (hashBlocks k4H.state k4Pad 0 64).1 =
        processBlock k4H.state k4Pad 0 from rfl]
    rw [k4Block]
    decide
  unfold sha1 hash SHA1.digest
  rw [e1, e2, e6]
  decide

/-- C1: the string-level convenience function `sha1` reproduces the four
known-answer vectors exactly (UTF-8 encoding of the input, hashing, and
lowercase hex encoding of the digest). -/
theorem sha1_known_answer_vectors :
    sha1 kat1In = kat1Out ∧ sha1 kat2In = kat2Out ∧
    sha1 kat3In = kat3Out ∧ sha1 kat4In = kat4Out :=
  ⟨sha1_kat1, sha1_kat2, sha1_kat3, sha1_kat4⟩

end Sha1
